import Mathlib

/-!
Shallow embedding of the query-to-logical-operator transformer
(`src/optimizer/query_to_operator_transformer.cpp` of the terrier repository)
together with proofs about its behaviour.

The C++ transformer is a stateful visitor over a bound SQL AST.  We embed:
  * the AST node shapes the transformer consumes (expressions, SELECT
    statements, table references, join definitions, DML statements),
  * the logical operator trees it produces,
  * the visitor itself as an explicit state-passing function.  The two pieces
    of mutable visitor state (`output_expr_` and `predicates_`) become a
    `TState` record threaded through every call; C++ exceptions become
    `Except` errors.  The mutual recursion of the visitor is made total with
    an explicit fuel argument: fuel exhaustion is a distinguished error
    (`Err.outOfFuel`) that never occurs for sufficiently large fuel, and all
    theorems either quantify over fuel or hypothesise a successful (`.ok`)
    run.
-/

/-- Expression kinds (`parser::ExpressionType`) used by the transformer.
`AGGREGATE` stands for the family of aggregate expression types, `OTHER` for
the remaining kinds the transformer treats generically, and `INVALID` is the
placeholder produced when reading a child index that is out of range. -/
inductive ExpressionType where
  | COMPARE_EQUAL
  | COMPARE_GREATER_THAN
  | COMPARE_GREATER_THAN_OR_EQUAL_TO
  | COMPARE_LESS_THAN
  | COMPARE_LESS_THAN_OR_EQUAL_TO
  | COMPARE_IN
  | OPERATOR_EXISTS
  | OPERATOR_IS_NOT_NULL
  | CONJUNCTION_AND
  | COLUMN_VALUE
  | ROW_SUBQUERY
  | AGGREGATE
  | OTHER
  | INVALID
  deriving DecidableEq, Repr

/-- Join kinds (`parser::JoinType`); `invalid` models any other enum value,
which the join builder rejects. -/
inductive JoinType where
  | inner | outer | left | right | semi | invalid
  deriving DecidableEq, Repr

/-- Order-by direction tokens (`parser::kOrderAsc` / `parser::kOrderDesc`). -/
inductive OrderType where
  | asc | desc
  deriving DecidableEq, Repr

/-- Sort directions of the logical limit operator
(`optimizer::OrderByOrderingType`). -/
inductive OrderByOrderingType where
  | ASC | DESC
  deriving DecidableEq, Repr

/-- Kind tag of an INSERT statement (`parser::InsertType`). -/
inductive InsertType where
  | values | select
  deriving DecidableEq, Repr

/-- A LIMIT clause (`parser::LimitDescription`): `GetOffset()` and
`GetLimit()`, both signed (the value `-1` is the "no limit" sentinel). -/
structure LimitDescription where
  offset : Int
  lim : Int
  deriving DecidableEq, Repr

mutual

/-- A bound expression (`parser::AbstractExpression`).  Fields mirror the
accessors the transformer uses: expression type, ordered children, binder
depth, the column reference data of a `COLUMN_VALUE` (table and column name),
the select-list alias, and — for a `ROW_SUBQUERY` (`SubqueryExpression`) —
the nested select statement. -/
inductive Expr where
  | mk (etype : ExpressionType) (children : List Expr) (depth : Int)
       (tableName columnName aliasName : String)
       (subSelect : Option SelectStatement)

/-- A bound SELECT statement (`parser::SelectStatement`) with the accessors
`GetSelectTable`, `GetSelectCondition`, `GetSelectColumns`, `GetSelectGroupBy`,
`GetSelectOrderBy`, `GetSelectLimit`, `IsSelectDistinct`, `GetDepth`. -/
inductive SelectStatement where
  | mk (selectTable : Option TableRef) (condition : Option Expr)
       (selectColumns : List Expr) (groupBy : Option GroupByDescription)
       (orderBy : Option OrderByDescription) (limit : Option LimitDescription)
       (isDistinct : Bool) (depth : Int)

/-- A table reference (`parser::TableRef`): a subquery in FROM, an explicit
join, a list of table references (implicit join), or a single base table. -/
inductive TableRef where
  | mk (select : Option SelectStatement) (join : Option JoinDefinition)
       (list : List TableRef) (dbName tableName aliasName : String)

/-- An explicit join (`parser::JoinDefinition`). -/
inductive JoinDefinition where
  | mk (joinType : JoinType) (left right : TableRef) (condition : Expr)

/-- A GROUP BY clause (`parser::GroupByDescription`): grouping columns and the
optional HAVING predicate. -/
inductive GroupByDescription where
  | mk (columns : List Expr) (having : Option Expr)

/-- An ORDER BY clause (`parser::OrderByDescription`): sort expressions and
their directions. -/
inductive OrderByDescription where
  | mk (exprs : List Expr) (types : List OrderType)

end

def Expr.etype : Expr → ExpressionType
  | .mk t _ _ _ _ _ _ => t

def Expr.children : Expr → List Expr
  | .mk _ c _ _ _ _ _ => c

def Expr.depth : Expr → Int
  | .mk _ _ d _ _ _ _ => d

def Expr.tableName : Expr → String
  | .mk _ _ _ tn _ _ _ => tn

def Expr.columnName : Expr → String
  | .mk _ _ _ _ cn _ _ => cn

def Expr.aliasName : Expr → String
  | .mk _ _ _ _ _ an _ => an

def Expr.subSelect : Expr → Option SelectStatement
  | .mk _ _ _ _ _ _ s => s

def SelectStatement.selectTable : SelectStatement → Option TableRef
  | .mk t _ _ _ _ _ _ _ => t

def SelectStatement.condition : SelectStatement → Option Expr
  | .mk _ c _ _ _ _ _ _ => c

def SelectStatement.selectColumns : SelectStatement → List Expr
  | .mk _ _ c _ _ _ _ _ => c

def SelectStatement.groupBy : SelectStatement → Option GroupByDescription
  | .mk _ _ _ g _ _ _ _ => g

def SelectStatement.orderBy : SelectStatement → Option OrderByDescription
  | .mk _ _ _ _ o _ _ _ => o

def SelectStatement.limit : SelectStatement → Option LimitDescription
  | .mk _ _ _ _ _ l _ _ => l

def SelectStatement.isDistinct : SelectStatement → Bool
  | .mk _ _ _ _ _ _ d _ => d

def SelectStatement.depth : SelectStatement → Int
  | .mk _ _ _ _ _ _ _ d => d

def TableRef.select : TableRef → Option SelectStatement
  | .mk s _ _ _ _ _ => s

def TableRef.join : TableRef → Option JoinDefinition
  | .mk _ j _ _ _ _ => j

def TableRef.list : TableRef → List TableRef
  | .mk _ _ l _ _ _ => l

def TableRef.dbName : TableRef → String
  | .mk _ _ _ d _ _ => d

def TableRef.tableName : TableRef → String
  | .mk _ _ _ _ t _ => t

def TableRef.aliasName : TableRef → String
  | .mk _ _ _ _ _ a => a

def JoinDefinition.joinType : JoinDefinition → JoinType
  | .mk t _ _ _ => t

def JoinDefinition.left : JoinDefinition → TableRef
  | .mk _ l _ _ => l

def JoinDefinition.right : JoinDefinition → TableRef
  | .mk _ _ r _ => r

def JoinDefinition.condition : JoinDefinition → Expr
  | .mk _ _ _ c => c

def GroupByDescription.columns : GroupByDescription → List Expr
  | .mk c _ => c

def GroupByDescription.having : GroupByDescription → Option Expr
  | .mk _ h => h

def OrderByDescription.exprs : OrderByDescription → List Expr
  | .mk e _ => e

def OrderByDescription.types : OrderByDescription → List OrderType
  | .mk _ t => t

/-- Placeholder expression returned when a child index is out of range (the
C++ code asserts in that case; the placeholder has kind `INVALID`, which no
transformer check matches). -/
def defaultExpr : Expr := .mk .INVALID [] 0 "" "" "" none

/-- Child access, `AbstractExpression::GetChild(idx)`. -/
def getChild (e : Expr) (i : Nat) : Expr := e.children.getD i defaultExpr

/-- Child replacement, `AbstractExpression::SetChild(idx, expr)`. -/
def setChild (e : Expr) (i : Nat) (c : Expr) : Expr :=
  match e with
  | .mk t ch d tn cn an ss => .mk t (ch.set i c) d tn cn an ss

/-- Replace the whole (visited) child list; used to model `AcceptChildren`,
which rewrites each child in place. -/
def setChildren (e : Expr) (ch : List Expr) : Expr :=
  match e with
  | .mk t _ d tn cn an ss => .mk t ch d tn cn an ss

/-- Expression-kind rewrite, `AbstractExpression::SetExpressionType`. -/
def setEtype (e : Expr) (t : ExpressionType) : Expr :=
  match e with
  | .mk _ ch d tn cn an ss => .mk t ch d tn cn an ss

/-- A conjunct annotated with the set of table aliases it references
(`optimizer::AnnotatedExpression`); the C++ alias container is an
`unordered_set`, modelled as a `Finset`. -/
structure AnnotatedExpression where
  expr : Expr
  aliases : Finset String

/-- An UPDATE set-clause (`parser::UpdateClause`): the transformer passes
these through untouched. -/
structure UpdateClause where
  columnName : String
  value : Expr

/-- Payloads of the logical operators the transformer emits
(`optimizer::LogicalGet`, `LogicalFilter`, ... from `logical_operators.h`). -/
inductive LogicalOp where
  | get (db ns table : Nat) (predicates : List AnnotatedExpression)
        (tableAlias : String) (forUpdate : Bool)
  | getDummy
  | queryDerivedGet (tableAlias : String) (aliasMap : List (String × Expr))
  | filter (predicates : List AnnotatedExpression)
  | innerJoin
  | outerJoin (cond : Expr)
  | leftJoin (cond : Expr)
  | rightJoin (cond : Expr)
  | semiJoin (cond : Expr)
  | markJoin
  | singleJoin
  | aggregateAndGroupBy (cols : List Expr)
  | distinct
  | limit (offset lim : Int) (sortExprs : List Expr)
          (sortDirections : List OrderByOrderingType)
  | insert (db ns table : Nat) (colIds : List Nat) (values : List (List Expr))
  | insertSelect (db ns table : Nat)
  | update (db ns : Nat) (tableAlias : String) (table : Nat)
           (clauses : List UpdateClause)
  | delete (db ns table : Nat)

/-- A node of the operator tree being assembled
(`optimizer::OperatorExpression`).  `nullp` models a null
`OperatorExpression*` (the initial value of the output slot). -/
inductive OpExpr where
  | nullp
  | node (op : LogicalOp) (children : List OpExpr)

/-- A column of a table schema (`catalog::Schema::Column`):
`Oid()`, `Name()`, `Nullable()`, `StoredExpression()`. -/
structure Column where
  oid : Nat
  name : String
  nullable : Bool
  storedExpr : Option Expr

/-- A table schema (`catalog::Schema`). -/
structure Schema where
  columns : List Column

/-- Name lookup, `Schema::GetColumn(name)`.  The C++ call raises
`std::out_of_range` for an unknown name; we return `none` and let the caller
translate that into the catalog error it raises. -/
def Schema.getColumn (s : Schema) (n : String) : Option Column :=
  s.columns.find? (fun c => c.name = n)

/-- The catalog collaborator (`catalog::CatalogAccessor`) restricted to the
operations the transformer consumes. -/
structure CatalogAccessor where
  databaseOid : String → Nat
  defaultNamespace : Nat
  tableOid : String → Nat
  schemaOf : Nat → Schema

/-- An INSERT statement (`parser::InsertStatement`) with `GetInsertType`,
`GetInsertionTable`, `GetInsertColumns`, `GetValues`, `GetSelect`. -/
structure InsertStatement where
  insertType : InsertType
  table : TableRef
  columns : List String
  values : List (List Expr)
  select : Option SelectStatement

/-- A DELETE statement (`parser::DeleteStatement`). -/
structure DeleteStatement where
  table : TableRef
  condition : Option Expr

/-- An UPDATE statement (`parser::UpdateStatement`). -/
structure UpdateStatement where
  table : TableRef
  clauses : List UpdateClause
  condition : Option Expr

/-- Errors raised by the transformer.  The first three mirror the C++
exception macros (`OPTIMIZER_EXCEPTION`, `CATALOG_EXCEPTION`,
`NOT_IMPLEMENTED_EXCEPTION`); `malformedAst` models executions where the C++
code would dereference a null pointer of a malformed AST, and `outOfFuel` is
the artefact of making the mutual recursion total by fuel. -/
inductive Err where
  | optimizerExc (msg : String)
  | catalogExc (msg : String)
  | notImplementedExc (msg : String)
  | malformedAst (msg : String)
  | outOfFuel
  deriving DecidableEq

/-- The mutable visitor state of `QueryToOperatorTransformer`: the current
root of the operator tree (`output_expr_`) and the predicate accumulator of
the enclosing SELECT scope (`predicates_`). -/
structure TState where
  output : OpExpr
  predicates : List AnnotatedExpression

mutual

/-- Conjunctive split, `QueryToOperatorTransformer::SplitPredicates`, on a
non-null expression: recurse through every `CONJUNCTION_AND` root into its
children in order, emitting the maximal non-AND subtrees. -/
def SplitPredicatesE : Expr → List Expr
  | .mk t ch d tn cn an ss =>
    if t = .CONJUNCTION_AND then SplitPredicatesL ch
    else [.mk t ch d tn cn an ss]

/-- The child traversal of `SplitPredicates` over a conjunction's children. -/
def SplitPredicatesL : List Expr → List Expr
  | [] => []
  | e :: es => SplitPredicatesE e ++ SplitPredicatesL es

end

/-- `SplitPredicates` including its null-input guard: a null expression
yields the empty list. -/
def SplitPredicates : Option Expr → List Expr
  | none => []
  | some e => SplitPredicatesE e

mutual

/-- Alias collection, `QueryToOperatorTransformer::GenerateTableAliasSet`:
insert the table name of every `COLUMN_VALUE` reachable from the root. -/
def GenerateTableAliasSet : Expr → Finset String
  | .mk t ch _ tn _ _ _ =>
    if t = .COLUMN_VALUE then {tn} else GenerateTableAliasSetL ch

/-- Child traversal of `GenerateTableAliasSet`. -/
def GenerateTableAliasSetL : List Expr → Finset String
  | [] => ∅
  | e :: es => GenerateTableAliasSet e ∪ GenerateTableAliasSetL es

end

/-- Predicate extraction, `QueryToOperatorTransformer::ExtractPredicates`, on
a non-null expression: split into conjuncts and annotate each with its table
alias set. -/
def ExtractPredicatesE (e : Expr) : List AnnotatedExpression :=
  (SplitPredicatesE e).map (fun p => ⟨p, GenerateTableAliasSet p⟩)

mutual

/-- Modelled from the spec: `parser::ExpressionUtil::GetAggregateExprs`
(declared in `parser/expression_util.h`, not part of the provided sources)
"recursively gets aggregate expressions from the current expression and its
children"; an item's collected list is non-empty exactly when the item
contains an aggregate sub-expression. -/
def ContainsAggregate : Expr → Bool
  | .mk t ch _ _ _ _ _ => t = .AGGREGATE || ContainsAggregateL ch

/-- Child traversal of `ContainsAggregate`. -/
def ContainsAggregateL : List Expr → Bool
  | [] => false
  | e :: es => ContainsAggregate e || ContainsAggregateL es

end

mutual

/-- Modelled from the spec: `parser::AbstractExpression::HasSubquery`
(not part of the provided sources), "a flag indicating whether any
descendant is a subquery"; a `ROW_SUBQUERY` node itself counts. -/
def HasSubqueryE : Expr → Bool
  | .mk t ch _ _ _ _ _ => t = .ROW_SUBQUERY || HasSubqueryL ch

/-- Child traversal of `HasSubqueryE`. -/
def HasSubqueryL : List Expr → Bool
  | [] => false
  | e :: es => HasSubqueryE e || HasSubqueryL es

end

/-- Aggregation analysis, `QueryToOperatorTransformer::RequireAggregation`:
GROUP BY forces aggregation; otherwise scan the select list, failing when
aggregate-bearing and aggregate-free items are mixed. -/
def RequireAggregation (op : SelectStatement) : Except Err Bool :=
  if op.groupBy.isSome then .ok true
  else
    let hasAggregation := op.selectColumns.any ContainsAggregate
    let hasOtherExprs := op.selectColumns.any (fun e => !ContainsAggregate e)
    if hasAggregation && hasOtherExprs then
      .error (.optimizerExc
        "Non aggregation expression must appear in the GROUP BY clause or be used in an aggregate function")
    else .ok hasAggregation

/-- Conjunct admissibility,
`QueryToOperatorTransformer::IsSupportedConjunctivePredicate`. -/
def IsSupportedConjunctivePredicate (e : Expr) : Bool :=
  if !HasSubqueryE e then true
  else if e.etype = .COMPARE_IN ∧ (getChild e 0).etype ≠ .ROW_SUBQUERY ∧
          (getChild e 1).etype = .ROW_SUBQUERY then true
  else if e.etype = .OPERATOR_EXISTS ∧ (getChild e 0).etype = .ROW_SUBQUERY then
    true
  else if (e.etype = .COMPARE_EQUAL ∨ e.etype = .COMPARE_GREATER_THAN ∨
           e.etype = .COMPARE_GREATER_THAN_OR_EQUAL_TO ∨
           e.etype = .COMPARE_LESS_THAN ∨
           e.etype = .COMPARE_LESS_THAN_OR_EQUAL_TO) ∧
          ((!HasSubqueryE (getChild e 0) ∧
            (getChild e 1).etype = .ROW_SUBQUERY) ∨
           (!HasSubqueryE (getChild e 1) ∧
            (getChild e 0).etype = .ROW_SUBQUERY)) then true
  else false

/-- Sub-select admissibility, `QueryToOperatorTransformer::IsSupportedSubSelect`:
no aggregation, or aggregation with every correlated WHERE conjunct an
equality between a bare column value and an expression at the sub-select's
own depth.  `RequireAggregation` may raise, hence the `Except`. -/
def IsSupportedSubSelect (op : SelectStatement) : Except Err Bool := do
  let req ← RequireAggregation op
  if !req then .ok true
  else
    .ok ((SplitPredicates op.condition).all fun pred =>
      if pred.depth < op.depth then
        decide (pred.etype = .COMPARE_EQUAL) &&
        (((getChild pred 1).depth = op.depth ∧
          (getChild pred 0).etype = .COLUMN_VALUE) ∨
         ((getChild pred 0).depth = op.depth ∧
          (getChild pred 1).etype = .COLUMN_VALUE) : Bool)
      else true)

/-- Alias map construction,
`QueryToOperatorTransformer::ConstructSelectElementMap`; the
`unordered_map` becomes an association list with overwrite-on-assignment. -/
def MapAssign (m : List (String × Expr)) (k : String) (v : Expr) :
    List (String × Expr) :=
  m.filter (fun p => ¬ p.1 = k) ++ [(k, v)]

def ConstructSelectElementMap (selectList : List Expr) :
    List (String × Expr) :=
  selectList.foldl
    (fun res e =>
      if e.aliasName ≠ "" then MapAssign res e.aliasName.toLower e
      else if e.etype = .COLUMN_VALUE then
        MapAssign res e.columnName.toLower e
      else res)
    []

/-- Sort expressions passed to the logical limit operator: the ORDER BY
expressions when an ORDER BY is present, else empty (from the LIMIT branch of
`Visit(SelectStatement)`). -/
def SortExprsOf : Option OrderByDescription → List Expr
  | some ob => ob.exprs
  | none => []

/-- Sort directions passed to the logical limit operator: `kOrderAsc` maps to
`ASC`, anything else to `DESC`. -/
def SortDirectionsOf : Option OrderByDescription → List OrderByOrderingType
  | some ob => ob.types.map (fun t => if t = OrderType.asc then .ASC else .DESC)
  | none => []

/-- Row-arity validation of `INSERT ... (cols) VALUES ...`: each tuple must
have exactly `numColumns` entries (first loop of the explicit-column branch of
`Visit(InsertStatement)`). -/
def CheckTupleSizes (numColumns : Nat) : List (List Expr) → Except Err Unit
  | [] => .ok ()
  | tuple :: rest =>
    if tuple.length > numColumns then
      .error (.catalogExc "ERROR:  INSERT has more expressions than target columns")
    else if tuple.length < numColumns then
      .error (.catalogExc "ERROR:  INSERT has more target columns than expressions")
    else CheckTupleSizes numColumns rest

/-- Resolution of the named INSERT columns against the schema (second loop of
the explicit-column branch): collect the oids of the specified columns,
failing on the first unknown name. -/
def ResolveInsertColumns (schema : Schema) (relName : String) :
    List String → Except Err (Finset Nat)
  | [] => .ok ∅
  | c :: cs =>
    match schema.getColumn c with
    | some col => do
        let s ← ResolveInsertColumns schema relName cs
        .ok (insert col.oid s)
    | none =>
        .error (.catalogExc
          ("ERROR:  column \"" ++ c ++ "\" of relation \"" ++ relName ++
           "\" does not exist"))

/-- NOT NULL validation of the schema columns left unspecified by an explicit
INSERT column list (third loop of the explicit-column branch). -/
def CheckNotNullUnspecified (specified : Finset Nat) :
    List Column → Except Err Unit
  | [] => .ok ()
  | col :: cols =>
    if col.oid ∉ specified ∧ ¬ col.nullable ∧ col.storedExpr.isNone then
      .error (.catalogExc
        ("ERROR: null value in column \"" ++ col.name ++
         "\" violates not-null constraint"))
    else CheckNotNullUnspecified specified cols

/-- NOT NULL validation of the trailing schema columns missing from a row of
an INSERT without an explicit column list. -/
def CheckMissingColumns : List Column → Except Err Unit
  | [] => .ok ()
  | col :: cols =>
    if ¬ col.nullable ∧ col.storedExpr.isNone then
      .error (.catalogExc
        ("ERROR:  null value in column \"" ++ col.name ++
         "\" violates not-null constraint"))
    else CheckMissingColumns cols

/-- Row validation of `INSERT ... VALUES` without an explicit column list:
rows must not be wider than the schema, and any trailing missing column must
be nullable or defaulted. -/
def CheckValuesImplicit (columnObjects : List Column) :
    List (List Expr) → Except Err Unit
  | [] => .ok ()
  | values :: rest =>
    if values.length > columnObjects.length then
      .error (.catalogExc "ERROR:  INSERT has more expressions than target columns")
    else do
      (if values.length < columnObjects.length then
        CheckMissingColumns (columnObjects.drop values.length)
      else .ok ())
      CheckValuesImplicit columnObjects rest

/-- The WHERE-filter step of `Visit(parser::SelectStatement*)`: when the
predicate accumulator is non-empty, wrap the output in a `LogicalFilter`
holding it and clear the accumulator. -/
def FilterStep (s : TState) : TState :=
  if s.predicates.isEmpty then s
  else { s with output := .node (.filter s.predicates) [s.output],
                predicates := [] }

/-- The HAVING-filter step: when the collected HAVING conjuncts are non-empty,
wrap the output in a `LogicalFilter` holding them (the accumulator is
untouched: HAVING conjuncts live in a local vector). -/
def HavingFilterStep (s : TState) (having : List AnnotatedExpression) :
    TState :=
  if having.isEmpty then s
  else { s with output := .node (.filter having) [s.output] }

/-- The DISTINCT step: wrap in `LogicalDistinct` when the select is
distinct. -/
def DistinctStep (op : SelectStatement) (s : TState) : TState :=
  if op.isDistinct then { s with output := .node .distinct [s.output] } else s

/-- The LIMIT step: wrap in `LogicalLimit` when a limit clause is present and
its limit value is not the sentinel `-1`; sort expressions and directions
come from the ORDER BY clause when present. -/
def LimitStep (op : SelectStatement) (s : TState) : TState :=
  match op.limit with
  | some l =>
      if l.lim ≠ -1 then
        { s with
            output := .node (.limit l.offset l.lim (SortExprsOf op.orderBy)
                               (SortDirectionsOf op.orderBy)) [s.output] }
      else s
  | none => s

mutual

/-- `QueryToOperatorTransformer::Visit(parser::SelectStatement*)`: save and
clear the predicate accumulator, lower FROM (or emit a bare get), collect the
WHERE predicates, wrap in `Filter` when the accumulator is non-empty, add
aggregation (with group-by columns and a HAVING filter when present), then
`Distinct`, then `Limit` when the limit value is not `-1`, and finally
restore the saved accumulator. -/
def VisitSelect (acc : CatalogAccessor) :
    Nat → SelectStatement → TState → Except Err TState
  | 0, _, _ => .error .outOfFuel
  | fuel+1, op, st => do
    let prePredicates := st.predicates
    let st0 : TState := { st with predicates := [] }
    let st1 ← (match op.selectTable with
      | some t => VisitTableRef acc fuel t st0
      | none => .ok { st0 with output := .node .getDummy [] })
    let st2 ← (match op.condition with
      | some cond => do
          let r ← CollectPredicates acc fuel cond st1
          .ok { r.2.1 with predicates := r.2.1.predicates ++ r.2.2 }
      | none => .ok st1)
    let st3 : TState := FilterStep st2
    let req ← RequireAggregation op
    let st4 ← (if req then
        match op.groupBy with
        | none =>
            .ok { st3 with
                    output := .node (.aggregateAndGroupBy []) [st3.output] }
        | some g => do
            let stg : TState :=
              { st3 with
                  output := .node (.aggregateAndGroupBy g.columns) [st3.output] }
            let hv ← (match g.having with
              | some h => do
                  let r ← CollectPredicates acc fuel h stg
                  .ok (r.2.1, r.2.2)
              | none => .ok (stg, ([] : List AnnotatedExpression)))
            .ok (HavingFilterStep hv.1 hv.2)
      else .ok st3)
    .ok { LimitStep op (DistinctStep op st4) with predicates := prePredicates }

/-- `QueryToOperatorTransformer::Visit(parser::TableRef*)`: subquery in FROM,
explicit join, implicit join over a list, or a single base table.  Note that
the implicit-join branch first visits entry 0 and then loops over the whole
list again, exactly as the C++ range-for does. -/
def VisitTableRef (acc : CatalogAccessor) :
    Nat → TableRef → TState → Except Err TState
  | 0, _, _ => .error .outOfFuel
  | fuel+1, node, st =>
    match node.select with
    | some sel => do
        let tableAlias := node.aliasName.toLower
        let aliasToExprMap := ConstructSelectElementMap sel.selectColumns
        let st1 ← VisitSelect acc fuel sel st
        .ok { st1 with
                output := .node (.queryDerivedGet tableAlias aliasToExprMap)
                            [st1.output] }
    | none =>
      match node.join with
      | some j => VisitJoin acc fuel j st
      | none =>
        match node.list with
        | t0 :: t1 :: rest => do
            let st1 ← VisitTableRef acc fuel t0 st
            let r ← VisitTableRefList acc fuel st1.output (t0 :: t1 :: rest) st1
            .ok { r.2 with output := r.1 }
        | _ =>
            let nd := match node.list with
              | [t] => t
              | _ => node
            .ok { st with
                    output := .node
                      (.get (acc.databaseOid nd.dbName) acc.defaultNamespace
                        (acc.tableOid nd.tableName) [] nd.aliasName false) [] }

/-- The implicit-join loop body of `Visit(parser::TableRef*)`: for each list
element, visit it and wrap the previous tree and the new output in a
condition-less `LogicalInnerJoin`. -/
def VisitTableRefList (acc : CatalogAccessor) :
    Nat → OpExpr → List TableRef → TState → Except Err (OpExpr × TState)
  | 0, _, _, _ => .error .outOfFuel
  | _+1, prev, [], st => .ok (prev, st)
  | fuel+1, prev, t :: ts, st => do
      let st1 ← VisitTableRef acc fuel t st
      VisitTableRefList acc fuel (.node .innerJoin [prev, st1.output]) ts st1

/-- `QueryToOperatorTransformer::Visit(parser::JoinDefinition*)`: lower both
sides, then build the join operator; an inner join pushes its condition into
the predicate accumulator, the others carry the condition. -/
def VisitJoin (acc : CatalogAccessor) :
    Nat → JoinDefinition → TState → Except Err TState
  | 0, _, _ => .error .outOfFuel
  | fuel+1, node, st => do
      let stl ← VisitTableRef acc fuel node.left st
      let leftExpr := stl.output
      let str ← VisitTableRef acc fuel node.right stl
      let rightExpr := str.output
      match node.joinType with
      | .inner => do
          let r ← CollectPredicates acc fuel node.condition str
          let st' : TState :=
            { r.2.1 with predicates := r.2.1.predicates ++ r.2.2 }
          .ok { st' with output := .node .innerJoin [leftExpr, rightExpr] }
      | .outer =>
          .ok { str with
                  output := .node (.outerJoin node.condition)
                              [leftExpr, rightExpr] }
      | .left =>
          .ok { str with
                  output := .node (.leftJoin node.condition)
                              [leftExpr, rightExpr] }
      | .right =>
          .ok { str with
                  output := .node (.rightJoin node.condition)
                              [leftExpr, rightExpr] }
      | .semi =>
          .ok { str with
                  output := .node (.semiJoin node.condition)
                              [leftExpr, rightExpr] }
      | .invalid => .error (.optimizerExc "Join type invalid")

/-- `QueryToOperatorTransformer::CollectPredicates`: verify every conjunct is
admissible, walk the expression (which may rewrite it and extend the operator
tree), and return the rewritten expression, the resulting state and the
annotated conjuncts to append. -/
def CollectPredicates (acc : CatalogAccessor) :
    Nat → Expr → TState → Except Err (Expr × TState × List AnnotatedExpression)
  | 0, _, _ => .error .outOfFuel
  | fuel+1, e, st =>
    if (SplitPredicatesE e).all IsSupportedConjunctivePredicate then do
      let r ← VisitExpr acc fuel e st
      .ok (r.1, r.2, ExtractPredicatesE r.1)
    else .error (.notImplementedExc "Predicate type not supported yet")

/-- The expression visitor: `Visit(parser::ComparisonExpression*)` for the
comparison kinds, `Visit(parser::OperatorExpression*)` for `OPERATOR_EXISTS`,
and the default child traversal for everything else. -/
def VisitExpr (acc : CatalogAccessor) :
    Nat → Expr → TState → Except Err (Expr × TState)
  | 0, _, _ => .error .outOfFuel
  | fuel+1, e, st =>
    if e.etype = .COMPARE_IN then do
      let r ← GenerateSubqueryTree acc fuel e 1 false st
      let e1 := if r.1 then setEtype r.2.1 .COMPARE_EQUAL else r.2.1
      AcceptChildren acc fuel e1 r.2.2
    else if e.etype = .COMPARE_EQUAL ∨ e.etype = .COMPARE_GREATER_THAN ∨
            e.etype = .COMPARE_GREATER_THAN_OR_EQUAL_TO ∨
            e.etype = .COMPARE_LESS_THAN ∨
            e.etype = .COMPARE_LESS_THAN_OR_EQUAL_TO then
      if (getChild e 0).etype = .ROW_SUBQUERY ∧
         (getChild e 1).etype = .ROW_SUBQUERY then
        .error (.notImplementedExc "Do not support comparison between sub-select")
      else do
        let r1 ← GenerateSubqueryTree acc fuel e 0 true st
        let r2 ← (if r1.1 then .ok r1
                  else GenerateSubqueryTree acc fuel r1.2.1 1 true r1.2.2)
        AcceptChildren acc fuel r2.2.1 r2.2.2
    else if e.etype = .OPERATOR_EXISTS then do
      let r ← GenerateSubqueryTree acc fuel e 0 false st
      let e1 := if r.1 then setEtype r.2.1 .OPERATOR_IS_NOT_NULL else r.2.1
      AcceptChildren acc fuel e1 r.2.2
    else
      AcceptChildren acc fuel e st

/-- `AbstractExpression::AcceptChildren`: visit each child in order,
rewriting it in place. -/
def AcceptChildren (acc : CatalogAccessor) :
    Nat → Expr → TState → Except Err (Expr × TState)
  | 0, _, _ => .error .outOfFuel
  | fuel+1, e, st => do
      let r ← VisitExprList acc fuel e.children st
      .ok (setChildren e r.1, r.2)

/-- Child-list traversal used by `AcceptChildren`. -/
def VisitExprList (acc : CatalogAccessor) :
    Nat → List Expr → TState → Except Err (List Expr × TState)
  | 0, _, _ => .error .outOfFuel
  | _+1, [], st => .ok ([], st)
  | fuel+1, c :: cs, st => do
      let r1 ← VisitExpr acc fuel c st
      let r2 ← VisitExprList acc fuel cs r1.2
      .ok (r1.1 :: r2.1, r2.2)

/-- `QueryToOperatorTransformer::GenerateSubqueryTree`: if the designated
child is a row subquery, check admissibility and single-column arity, lower
the sub-select, wrap the previous output and the lowered subtree in a
`SingleJoin`/`MarkJoin`, and replace the child with the sub-select's single
projected column. -/
def GenerateSubqueryTree (acc : CatalogAccessor) :
    Nat → Expr → Nat → Bool → TState → Except Err (Bool × Expr × TState)
  | 0, _, _, _, _ => .error .outOfFuel
  | fuel+1, e, childId, singleJoin, st =>
    let subqueryExpr := getChild e childId
    if subqueryExpr.etype ≠ .ROW_SUBQUERY then .ok (false, e, st)
    else
      match subqueryExpr.subSelect with
      | none => .error (.malformedAst "ROW_SUBQUERY without a sub-select")
      | some subSelect => do
          let sup ← IsSupportedSubSelect subSelect
          if !sup then .error (.notImplementedExc "Sub-select not supported")
          else if subSelect.selectColumns.length ≠ 1 then
            .error (.notImplementedExc "Array in predicates not supported")
          else do
            let outer := st.output
            let st1 ← VisitSelect acc fuel subSelect st
            let opExpr : OpExpr :=
              .node (if singleJoin then .singleJoin else .markJoin)
                [outer, st1.output]
            .ok (true,
                 setChild e childId (subSelect.selectColumns.getD 0 defaultExpr),
                 { st1 with output := opExpr })

/-- `QueryToOperatorTransformer::Visit(parser::InsertStatement*)`: either the
`INSERT ... SELECT` form, or `INSERT ... VALUES` with schema validation and a
`LogicalInsert` whose column ids are the full schema (implicit form) or the
specified set (explicit form). -/
def VisitInsert (acc : CatalogAccessor) :
    Nat → InsertStatement → TState → Except Err TState
  | 0, _, _ => .error .outOfFuel
  | fuel+1, op, st => do
    let targetTableId := acc.tableOid op.table.tableName
    let targetDbId := acc.databaseOid op.table.dbName
    let targetNsId := acc.defaultNamespace
    if op.insertType = .select then
      match op.select with
      | none => .error (.malformedAst "INSERT SELECT without a select")
      | some sel => do
          let st1 ← VisitSelect acc fuel sel st
          .ok { st1 with
                  output := .node (.insertSelect targetDbId targetNsId
                              targetTableId) [st1.output] }
    else do
      let columnObjects := (acc.schemaOf targetTableId).columns
      if op.columns.isEmpty then do
        CheckValuesImplicit columnObjects op.values
        let colIds := columnObjects.map Column.oid
        .ok { st with
                output := .node (.insert targetDbId targetNsId targetTableId
                            colIds op.values) [] }
      else do
        CheckTupleSizes op.columns.length op.values
        let schema := acc.schemaOf targetTableId
        let specified ← ResolveInsertColumns schema op.table.tableName
                          op.columns
        CheckNotNullUnspecified specified schema.columns
        let colIds := specified.sort (· ≤ ·)
        .ok { st with
                output := .node (.insert targetDbId targetNsId targetTableId
                            colIds op.values) [] }

end

/-- `QueryToOperatorTransformer::Visit(parser::DeleteStatement*)`: a
`LogicalDelete` over a `for_update` `LogicalGet` whose predicates come from
`ExtractPredicates` on the WHERE clause (no admissibility check, no subquery
rewrite). -/
def VisitDelete (acc : CatalogAccessor) (op : DeleteStatement) (st : TState) :
    Except Err TState :=
  let targetDbId := acc.databaseOid op.table.dbName
  let targetTableId := acc.tableOid op.table.tableName
  let targetNsId := acc.defaultNamespace
  let targetTableAlias := op.table.aliasName
  let predicates := match op.condition with
    | some c => ExtractPredicatesE c
    | none => []
  .ok { st with
          output := .node (.delete targetDbId targetNsId targetTableId)
            [.node (.get targetDbId targetNsId targetTableId predicates
               targetTableAlias true) []] }

/-- `QueryToOperatorTransformer::Visit(parser::UpdateStatement*)`: a
`LogicalUpdate` over a `for_update` `LogicalGet` whose predicates come from
`ExtractPredicates` on the WHERE clause (no admissibility check, no subquery
rewrite). -/
def VisitUpdate (acc : CatalogAccessor) (op : UpdateStatement) (st : TState) :
    Except Err TState :=
  let targetDbId := acc.databaseOid op.table.dbName
  let targetTableId := acc.tableOid op.table.tableName
  let targetNsId := acc.defaultNamespace
  let targetTableAlias := op.table.aliasName
  let predicates := match op.condition with
    | some c => ExtractPredicatesE c
    | none => []
  .ok { st with
          output := .node (.update targetDbId targetNsId targetTableAlias
              targetTableId op.clauses)
            [.node (.get targetDbId targetNsId targetTableId predicates
               targetTableAlias true) []] }

/-- Peeling a successful monadic bind in `Except`. -/
theorem except_bind_ok_iff {ε α β : Type} (x : Except ε α) (f : α → Except ε β)
    (v : β) : (x >>= f = Except.ok v) ↔ ∃ a, x = .ok a ∧ f a = .ok v := by
  cases x with
  | error e => simp [Bind.bind, Except.bind]
  | ok a => simp [Bind.bind, Except.bind]

theorem except_bind_ok {ε α β : Type} {x : Except ε α} {f : α → Except ε β}
    {v : β} (h : x >>= f = Except.ok v) : ∃ a, x = .ok a ∧ f a = .ok v :=
  (except_bind_ok_iff x f v).mp h

theorem setChildren_self (e : Expr) : setChildren e e.children = e := by
  cases e; rfl

theorem hasSubquery_etype {e : Expr} (h : HasSubqueryE e = false) :
    e.etype ≠ .ROW_SUBQUERY := by
  cases e with
  | mk t ch d tn cn an ss =>
    rw [HasSubqueryE] at h
    simp only [Bool.or_eq_false_iff, decide_eq_false_iff_not] at h
    simpa [Expr.etype] using h.1

theorem hasSubquery_children {e : Expr} (h : HasSubqueryE e = false) :
    HasSubqueryL e.children = false := by
  cases e with
  | mk t ch d tn cn an ss =>
    rw [HasSubqueryE] at h
    simp only [Bool.or_eq_false_iff] at h
    simpa [Expr.children] using h.2

theorem hasSubqueryL_mem {l : List Expr} (h : HasSubqueryL l = false) :
    ∀ x ∈ l, HasSubqueryE x = false := by
  induction l with
  | nil => simp
  | cons a as ih =>
    rw [HasSubqueryL] at h
    simp only [Bool.or_eq_false_iff] at h
    intro x hx
    rcases List.mem_cons.mp hx with rfl | hx
    · exact h.1
    · exact ih h.2 x hx

theorem getD_mem_or_default (l : List Expr) (i : Nat) (d : Expr) :
    l.getD i d = d ∨ l.getD i d ∈ l := by
  induction l generalizing i with
  | nil => simp [List.getD]
  | cons a as ih =>
    cases i with
    | zero => right; simp
    | succ j =>
      rcases ih j with h | h
      · left; simpa using h
      · right; simp only [List.getD_cons_succ]
        exact List.mem_cons_of_mem _ h

theorem hasSubquery_getChild {e : Expr} (h : HasSubqueryE e = false) (i : Nat) :
    HasSubqueryE (getChild e i) = false := by
  rcases getD_mem_or_default e.children i defaultExpr with hd | hm
  · rw [getChild, hd]; rfl
  · exact hasSubqueryL_mem (hasSubquery_children h) _ hm

theorem hasSubquery_getChild_etype {e : Expr} (h : HasSubqueryE e = false)
    (i : Nat) : (getChild e i).etype ≠ .ROW_SUBQUERY :=
  hasSubquery_etype (hasSubquery_getChild h i)

/-- Visiting a subquery-free expression rewrites nothing: a successful run of
the expression visitor returns the expression and the state unchanged.  This
is the formal content of the fact that the only rewrites the expression
visitor performs are subquery rewrites. -/
theorem visit_nosub (acc : CatalogAccessor) :
    ∀ fuel : Nat,
      (∀ e st r, HasSubqueryE e = false →
        VisitExpr acc fuel e st = .ok r → r = (e, st)) ∧
      (∀ e st r, HasSubqueryE e = false →
        AcceptChildren acc fuel e st = .ok r → r = (e, st)) ∧
      (∀ l st r, HasSubqueryL l = false →
        VisitExprList acc fuel l st = .ok r → r = (l, st)) := by
  intro fuel
  induction fuel with
  | zero =>
    refine ⟨?_, ?_, ?_⟩ <;> intro x st r hx h <;>
      simp [VisitExpr, AcceptChildren, VisitExprList] at h
  | succ f ih =>
    obtain ⟨ihE, ihA, ihL⟩ := ih
    have genTriv : ∀ (e : Expr) (st : TState) (i : Nat) (b : Bool) g,
        HasSubqueryE e = false →
        GenerateSubqueryTree acc f e i b st = .ok g → g = (false, e, st) := by
      intro e st i b g hs hg
      cases f with
      | zero => rw [GenerateSubqueryTree] at hg; cases hg
      | succ f2 =>
        rw [GenerateSubqueryTree] at hg
        rw [if_pos (hasSubquery_getChild_etype hs i)] at hg
        cases hg; rfl
    refine ⟨?_, ?_, ?_⟩
    · intro e st r hs h
      rw [VisitExpr] at h
      by_cases h1 : e.etype = .COMPARE_IN
      · rw [if_pos h1] at h
        obtain ⟨g, hg, h⟩ := except_bind_ok h
        have := genTriv e st 1 false g hs hg
        subst this
        simp only [Bool.false_eq_true, if_false] at h
        exact ihA e st r hs h
      · rw [if_neg h1] at h
        by_cases h2 : e.etype = .COMPARE_EQUAL ∨ e.etype = .COMPARE_GREATER_THAN ∨
            e.etype = .COMPARE_GREATER_THAN_OR_EQUAL_TO ∨
            e.etype = .COMPARE_LESS_THAN ∨
            e.etype = .COMPARE_LESS_THAN_OR_EQUAL_TO
        · rw [if_pos h2] at h
          rw [if_neg (by
            intro hc
            exact hasSubquery_getChild_etype hs 0 hc.1)] at h
          obtain ⟨g1, hg1, h⟩ := except_bind_ok h
          have := genTriv e st 0 true g1 hs hg1
          subst this
          obtain ⟨g2, hg2, h⟩ := except_bind_ok h
          simp only [Bool.false_eq_true, if_false] at hg2
          have := genTriv e st 1 true g2 hs hg2
          subst this
          exact ihA e st r hs h
        · rw [if_neg h2] at h
          by_cases h3 : e.etype = .OPERATOR_EXISTS
          · rw [if_pos h3] at h
            obtain ⟨g, hg, h⟩ := except_bind_ok h
            have := genTriv e st 0 false g hs hg
            subst this
            simp only [Bool.false_eq_true, if_false] at h
            exact ihA e st r hs h
          · rw [if_neg h3] at h
            exact ihA e st r hs h
    · intro e st r hs h
      rw [AcceptChildren] at h
      obtain ⟨rl, hrl, h⟩ := except_bind_ok h
      have := ihL e.children st rl (hasSubquery_children hs) hrl
      subst this
      cases h
      simp [setChildren_self]
    · intro l st r hs h
      cases l with
      | nil => rw [VisitExprList] at h; cases h; rfl
      | cons c cs =>
        rw [HasSubqueryL] at hs
        simp only [Bool.or_eq_false_iff] at hs
        rw [VisitExprList] at h
        obtain ⟨r1, hr1, h⟩ := except_bind_ok h
        have := ihE c st r1 hs.1 hr1
        subst this
        obtain ⟨r2, hr2, h⟩ := except_bind_ok h
        have := ihL cs st r2 hs.2 hr2
        subst this
        cases h; rfl

/-- Collecting predicates from a subquery-free expression returns the
expression unchanged, the state unchanged, and its annotated conjuncts. -/
theorem collect_nosub (acc : CatalogAccessor) (fuel : Nat) (e : Expr)
    (st : TState) (r : Expr × TState × List AnnotatedExpression)
    (hs : HasSubqueryE e = false)
    (h : CollectPredicates acc fuel e st = .ok r) :
    r = (e, st, ExtractPredicatesE e) := by
  cases fuel with
  | zero => rw [CollectPredicates] at h; cases h
  | succ f =>
    rw [CollectPredicates] at h
    by_cases hall : (SplitPredicatesE e).all IsSupportedConjunctivePredicate
    · rw [if_pos hall] at h
      obtain ⟨rv, hrv, h⟩ := except_bind_ok h
      have := (visit_nosub acc f).1 e st rv hs hrv
      subst this
      cases h; rfl
    · rw [if_neg hall] at h
      cases h

theorem splitPredicatesL_flatten (l : List Expr) :
    SplitPredicatesL l = (l.map SplitPredicatesE).flatten := by
  induction l with
  | nil => simp [SplitPredicatesL]
  | cons a as ih => simp [SplitPredicatesL, ih]

theorem splitPredicates_no_and :
    ∀ e : Expr, ∀ p ∈ SplitPredicatesE e, p.etype ≠ .CONJUNCTION_AND := by
  have key : ∀ n : Nat,
      (∀ e : Expr, sizeOf e ≤ n →
        ∀ p ∈ SplitPredicatesE e, p.etype ≠ .CONJUNCTION_AND) ∧
      (∀ l : List Expr, sizeOf l ≤ n →
        ∀ p ∈ SplitPredicatesL l, p.etype ≠ .CONJUNCTION_AND) := by
    intro n
    induction n with
    | zero =>
      constructor
      · intro e he; cases e; simp at he
      · intro l hl
        cases l with
        | nil => simp [SplitPredicatesL]
        | cons a as => simp at hl
    | succ n ih =>
      constructor
      · intro e he p hp
        cases e with
        | mk t ch d tn cn an ss =>
          rw [SplitPredicatesE] at hp
          by_cases ht : t = .CONJUNCTION_AND
          · simp only [ht, if_pos rfl] at hp
            have : sizeOf ch ≤ n := by simp at he; omega
            exact ih.2 ch this p hp
          · simp only [if_neg ht] at hp
            simp at hp
            subst hp
            simpa [Expr.etype] using ht
      · intro l hl p hp
        cases l with
        | nil => simp [SplitPredicatesL] at hp
        | cons a as =>
          rw [SplitPredicatesL] at hp
          rcases List.mem_append.mp hp with h | h
          · have : sizeOf a ≤ n := by simp at hl; omega
            exact ih.1 a this p h
          · have : sizeOf as ≤ n := by simp at hl; omega
            exact ih.2 as this p h
  intro e
  exact (key (sizeOf e)).1 e (Nat.le_refl _)

/-- C6: `SplitPredicates` returns the empty list on null input, recurses
through every `CONJUNCTION_AND` root into its children in order, returns the
singleton list on any other root, and consequently no returned conjunct has a
`CONJUNCTION_AND` root. -/
theorem c6_split_predicates_conjunctive_decomposition :
    SplitPredicates none = [] ∧
    (∀ e : Expr, e.etype = .CONJUNCTION_AND →
      SplitPredicatesE e = (e.children.map SplitPredicatesE).flatten) ∧
    (∀ e : Expr, e.etype ≠ .CONJUNCTION_AND → SplitPredicatesE e = [e]) ∧
    (∀ e : Expr, ∀ p ∈ SplitPredicatesE e, p.etype ≠ .CONJUNCTION_AND) := by
  refine ⟨rfl, ?_, ?_, splitPredicates_no_and⟩
  · intro e he
    cases e with
    | mk t ch d tn cn an ss =>
      rw [SplitPredicatesE]
      rw [if_pos (by simpa [Expr.etype] using he)]
      simpa [Expr.children] using splitPredicatesL_flatten ch
  · intro e he
    cases e with
    | mk t ch d tn cn an ss =>
      rw [SplitPredicatesE]
      rw [if_neg (by simpa [Expr.etype] using he)]

/-- Witness for C6: a two-level AND tree splits into its three non-AND
leaves, and a non-AND root splits into a singleton. -/
theorem c6_split_predicates_witness :
    SplitPredicatesE
        (.mk .CONJUNCTION_AND
          [.mk .CONJUNCTION_AND
            [.mk .COMPARE_EQUAL [] 0 "" "" "" none,
             .mk .COLUMN_VALUE [] 0 "t" "a" "" none] 0 "" "" "" none,
           .mk .COMPARE_LESS_THAN [] 0 "" "" "" none] 0 "" "" "" none) =
      ((Expr.mk .CONJUNCTION_AND
          [.mk .CONJUNCTION_AND
            [.mk .COMPARE_EQUAL [] 0 "" "" "" none,
             .mk .COLUMN_VALUE [] 0 "t" "a" "" none] 0 "" "" "" none,
           .mk .COMPARE_LESS_THAN [] 0 "" "" "" none] 0 "" "" "" none).children.map
        SplitPredicatesE).flatten ∧
    SplitPredicatesE (.mk .COMPARE_EQUAL [] 0 "" "" "" none) =
      [.mk .COMPARE_EQUAL [] 0 "" "" "" none] :=
  ⟨c6_split_predicates_conjunctive_decomposition.2.1 _ rfl,
   c6_split_predicates_conjunctive_decomposition.2.2.1 _ (by decide)⟩

/-- C3: `RequireAggregation` returns true whenever a GROUP BY is present;
without one it returns false when no select-list item contains an aggregate,
true when every item of a non-empty list does, and raises the mixed-
aggregation error exactly when the list mixes aggregate-bearing and
aggregate-free items without a GROUP BY. -/
theorem c3_require_aggregation (op : SelectStatement) :
    (op.groupBy.isSome → RequireAggregation op = .ok true) ∧
    (op.groupBy = none →
      (∀ e ∈ op.selectColumns, ContainsAggregate e = false) →
      RequireAggregation op = .ok false) ∧
    (op.groupBy = none → op.selectColumns ≠ [] →
      (∀ e ∈ op.selectColumns, ContainsAggregate e = true) →
      RequireAggregation op = .ok true) ∧
    (RequireAggregation op =
        .error (.optimizerExc
          "Non aggregation expression must appear in the GROUP BY clause or be used in an aggregate function") ↔
      (op.groupBy = none ∧
        (∃ e ∈ op.selectColumns, ContainsAggregate e = true) ∧
        (∃ e ∈ op.selectColumns, ContainsAggregate e = false))) := by
  unfold RequireAggregation
  cases hgb : op.groupBy with
  | some g => simp
  | none =>
    simp only [Option.isSome_none, Bool.false_eq_true, if_false, true_and]
    refine ⟨by simp, ?_, ?_, ?_⟩
    · intro _ hall
      have hA : op.selectColumns.any ContainsAggregate = false := by
        simp only [List.any_eq_false]
        intro e he
        simp [hall e he]
      simp [hA]
    · intro _ hne hall
      have hA : op.selectColumns.any ContainsAggregate = true := by
        cases hc : op.selectColumns with
        | nil => exact absurd hc hne
        | cons a as =>
          simp only [List.any_eq_true]
          exact ⟨a, by simp [hc], hall a (by simp [hc])⟩
      have hB : op.selectColumns.any (fun e => !ContainsAggregate e) = false := by
        simp only [List.any_eq_false]
        intro e he
        simp [hall e he]
      simp [hA, hB]
    · by_cases hA : op.selectColumns.any ContainsAggregate
      · by_cases hB : op.selectColumns.any (fun e => !ContainsAggregate e)
        · rw [if_pos (by simp [hA, hB])]
          refine iff_of_true rfl ⟨?_, ?_⟩
          · simpa [List.any_eq_true] using hA
          · have := List.any_eq_true.mp hB
            simpa using this
        · rw [if_neg (by simp [hB])]
          constructor
          · intro hcon; cases hcon
          · rintro ⟨_, ⟨e, he, hce⟩⟩
            exact absurd (List.any_eq_true.mpr ⟨e, he, by simp [hce]⟩) hB
      · rw [if_neg (by simp [hA])]
        constructor
        · intro hcon; cases hcon
        · rintro ⟨⟨e, he, hce⟩, _⟩
          exact absurd (List.any_eq_true.mpr ⟨e, he, hce⟩) hA

/-- Witness for C3: a pure-aggregate list yields true; an aggregate-free list
yields false; a mixed list without GROUP BY raises the mixed-aggregation
error. -/
theorem c3_require_aggregation_witness :
    RequireAggregation
        (.mk none none [.mk .AGGREGATE [] 0 "" "" "" none] none none none
          false 0) = .ok true ∧
    RequireAggregation
        (.mk none none [.mk .COLUMN_VALUE [] 0 "t" "a" "" none] none none none
          false 0) = .ok false ∧
    RequireAggregation
        (.mk none none
          [.mk .AGGREGATE [] 0 "" "" "" none,
           .mk .COLUMN_VALUE [] 0 "t" "a" "" none] none none none false 0) =
      .error (.optimizerExc
        "Non aggregation expression must appear in the GROUP BY clause or be used in an aggregate function") :=
  ⟨(c3_require_aggregation _).2.2.1 rfl
      (by simp [SelectStatement.selectColumns]) (by decide),
   (c3_require_aggregation _).2.1 rfl (by decide),
   (c3_require_aggregation _).2.2.2.mpr
     ⟨rfl,
      ⟨Expr.mk .AGGREGATE [] 0 "" "" "" none, by simp [SelectStatement.selectColumns], by decide⟩,
      ⟨Expr.mk .COLUMN_VALUE [] 0 "t" "a" "" none, by simp [SelectStatement.selectColumns], by decide⟩⟩⟩

/-- A small concrete catalog used for concrete runs of the transformer. -/
def sampleAcc : CatalogAccessor :=
  { databaseOid := fun _ => 7
    defaultNamespace := 5
    tableOid := fun n => if n = "t1" then 1 else if n = "t2" then 2 else 3
    schemaOf := fun _ => ⟨[]⟩ }

/-- A base-table reference with the given name (alias equal to the name). -/
def baseTable (n : String) : TableRef := .mk none none [] "d" n n

/-- The FROM list `t1, t2, t3`. -/
def fromListT1T2T3 : TableRef :=
  .mk none none [baseTable "t1", baseTable "t2", baseTable "t3"] "d" "" ""

/-- The base-table scan emitted for `baseTable n` with table oid `i` under
`sampleAcc`. -/
def sampleGet (n : String) (i : Nat) : OpExpr := .node (.get 7 5 i [] n false) []

/-- C1 (counter-evidence): on the three-table FROM list `t1, t2, t3` the
transformer does NOT produce `InnerJoin(InnerJoin(Get(t1), Get(t2)), Get(t3))`.
The implicit-join branch visits entry 0 and then loops over the whole list
again (including entry 0), so the result contains `Get(t1)` twice:
`InnerJoin(InnerJoin(InnerJoin(Get(t1), Get(t1)), Get(t2)), Get(t3))`,
with three join nodes and four leaves instead of two and three. -/
theorem c1_implicit_join_duplicates_first_entry :
    VisitTableRef sampleAcc 10 fromListT1T2T3 ⟨.nullp, []⟩ =
      .ok ⟨.node .innerJoin
            [.node .innerJoin
              [.node .innerJoin [sampleGet "t1" 1, sampleGet "t1" 1],
               sampleGet "t2" 2],
             sampleGet "t3" 3], []⟩ := rfl

/-- C10: for DELETE and UPDATE with a WHERE clause, the child `Get`
(for_update = true) carries exactly `ExtractPredicates` of the WHERE clause;
the visit always succeeds — in particular no conjunct-admissibility check and
no subquery rewrite runs on this path, whatever the shape of the
predicate. -/
theorem c10_dml_predicates_extract_only (acc : CatalogAccessor)
    (dop : DeleteStatement) (uop : UpdateStatement) (c cu : Expr)
    (std stu : TState) (hd : dop.condition = some c)
    (hu : uop.condition = some cu) :
    VisitDelete acc dop std =
      .ok { std with
              output := .node
                (.delete (acc.databaseOid dop.table.dbName)
                  acc.defaultNamespace (acc.tableOid dop.table.tableName))
                [.node (.get (acc.databaseOid dop.table.dbName)
                   acc.defaultNamespace (acc.tableOid dop.table.tableName)
                   (ExtractPredicatesE c) dop.table.aliasName true) []] } ∧
    VisitUpdate acc uop stu =
      .ok { stu with
              output := .node
                (.update (acc.databaseOid uop.table.dbName)
                  acc.defaultNamespace uop.table.aliasName
                  (acc.tableOid uop.table.tableName) uop.clauses)
                [.node (.get (acc.databaseOid uop.table.dbName)
                   acc.defaultNamespace (acc.tableOid uop.table.tableName)
                   (ExtractPredicatesE cu) uop.table.aliasName true) []] } := by
  constructor
  · simp [VisitDelete, hd]
  · simp [VisitUpdate, hu]

/-- A WHERE conjunct of a shape `CollectPredicates` would reject: a
`COMPARE_IN` whose left child is itself a row subquery is not accepted by
`IsSupportedConjunctivePredicate`, so on the SELECT path it would raise
"Predicate type not supported yet". -/
def inadmissiblePred : Expr :=
  .mk .COMPARE_IN
    [.mk .ROW_SUBQUERY [] 0 "" "" "" none,
     .mk .ROW_SUBQUERY [] 0 "" "" "" none] 0 "" "" "" none

/-- Witness for C10: a DELETE and an UPDATE whose WHERE clause is an
inadmissible conjunct (both IN children are subqueries, so
`IsSupportedConjunctivePredicate` is false) still succeed, and the conjunct
lands unchanged in the child `Get`. -/
theorem c10_dml_predicates_extract_only_witness :
    IsSupportedConjunctivePredicate inadmissiblePred = false ∧
    VisitDelete sampleAcc ⟨baseTable "t1", some inadmissiblePred⟩ ⟨.nullp, []⟩ =
      .ok ⟨.node (.delete 7 5 1)
            [.node (.get 7 5 1 [⟨inadmissiblePred, ∅⟩] "t1" true) []], []⟩ ∧
    VisitUpdate sampleAcc ⟨baseTable "t2", [], some inadmissiblePred⟩
        ⟨.nullp, []⟩ =
      .ok ⟨.node (.update 7 5 "t2" 2 [])
            [.node (.get 7 5 2 [⟨inadmissiblePred, ∅⟩] "t2" true) []], []⟩ :=
  ⟨rfl,
   (c10_dml_predicates_extract_only sampleAcc
      ⟨baseTable "t1", some inadmissiblePred⟩
      ⟨baseTable "t2", [], some inadmissiblePred⟩ inadmissiblePred
      inadmissiblePred ⟨.nullp, []⟩ ⟨.nullp, []⟩ rfl rfl).1,
   (c10_dml_predicates_extract_only sampleAcc
      ⟨baseTable "t1", some inadmissiblePred⟩
      ⟨baseTable "t2", [], some inadmissiblePred⟩ inadmissiblePred
      inadmissiblePred ⟨.nullp, []⟩ ⟨.nullp, []⟩ rfl rfl).2⟩

/-- C9: a successful SELECT visit restores the predicate accumulator: the
state returned to the caller carries exactly the predicates held before the
visit (the visitor saves them on entry, works on an empty accumulator, and
restores them on exit). -/
theorem c9_predicate_accumulator_restored (acc : CatalogAccessor) (fuel : Nat)
    (op : SelectStatement) (st st' : TState)
    (h : VisitSelect acc fuel op st = .ok st') :
    st'.predicates = st.predicates := by
  cases fuel with
  | zero => rw [VisitSelect] at h; cases h
  | succ f =>
    rw [VisitSelect] at h
    obtain ⟨st1, h1, h⟩ := except_bind_ok h
    obtain ⟨st2, h2, h⟩ := except_bind_ok h
    obtain ⟨req, hreq, h⟩ := except_bind_ok h
    obtain ⟨st4, h4, h⟩ := except_bind_ok h
    cases h
    rfl


/-- Spec-side wrapper: a `Filter` is added exactly when the predicate list is
non-empty (refinement target for C2, following the spec's words). -/
def specFilterWrap (preds : List AnnotatedExpression) (t : OpExpr) : OpExpr :=
  if preds.isEmpty then t else .node (.filter preds) [t]

/-- Spec-side wrapper: `AggregateAndGroupBy` is added exactly when aggregation
is required, carrying the GROUP BY columns when a GROUP BY is present. -/
def specAggWrap (req : Bool) (gb : Option GroupByDescription) (t : OpExpr) :
    OpExpr :=
  if req then
    .node (.aggregateAndGroupBy
      (match gb with | some g => g.columns | none => [])) [t]
  else t

/-- Spec-side wrapper: `Distinct` is added exactly when the select is
distinct. -/
def specDistinctWrap (d : Bool) (t : OpExpr) : OpExpr :=
  if d then .node .distinct [t] else t

/-- Spec-side wrapper: `Limit` is added exactly when a limit clause is present
and its limit value is not the sentinel `-1`. -/
def specLimitWrap (lim : Option LimitDescription)
    (ob : Option OrderByDescription) (t : OpExpr) : OpExpr :=
  match lim with
  | some l =>
      if l.lim ≠ -1 then
        .node (.limit l.offset l.lim (SortExprsOf ob) (SortDirectionsOf ob)) [t]
      else t
  | none => t

theorem FilterStep_output (s : TState) :
    (FilterStep s).output = specFilterWrap s.predicates s.output := by
  by_cases hp : s.predicates.isEmpty <;> simp [FilterStep, specFilterWrap, hp]

theorem HavingFilterStep_output (s : TState)
    (having : List AnnotatedExpression) :
    (HavingFilterStep s having).output = specFilterWrap having s.output := by
  by_cases hp : having.isEmpty <;>
    simp [HavingFilterStep, specFilterWrap, hp]

theorem DistinctStep_output (op : SelectStatement) (s : TState) :
    (DistinctStep op s).output = specDistinctWrap op.isDistinct s.output := by
  by_cases hd : op.isDistinct <;> simp [DistinctStep, specDistinctWrap, hd]

theorem LimitStep_output (op : SelectStatement) (s : TState) :
    (LimitStep op s).output = specLimitWrap op.limit op.orderBy s.output := by
  cases hl : op.limit with
  | none => simp [LimitStep, specLimitWrap, hl]
  | some l =>
    by_cases h1 : l.lim = -1 <;> simp [LimitStep, specLimitWrap, hl, h1]

/-- C2: a successfully transformed SELECT statement (with a subquery-free
HAVING clause, when one is present) produces, bottom-up: the FROM-derived
subtree (the state produced by `VisitTableRef`, or the bare get for a
scalar SELECT), a `Filter` of the accumulated WHERE conjuncts when the
accumulator is non-empty (the accumulator and tree being exactly what
`CollectPredicates` on the WHERE clause left), `AggregateAndGroupBy` when
aggregation is required, a `Filter` of the HAVING conjuncts when present,
`Distinct` when the select is distinct, and a `Limit` only when a limit
clause is present with a limit value other than `-1`. -/
theorem c2_select_wrapper_order (acc : CatalogAccessor) (fuel : Nat)
    (op : SelectStatement) (st st' : TState)
    (hhav : ∀ g hv, op.groupBy = some g → g.having = some hv →
      HasSubqueryE hv = false)
    (h : VisitSelect acc (fuel+1) op st = .ok st') :
    ∃ fromState base wps hps req,
      (match op.selectTable with
        | some t =>
            VisitTableRef acc fuel t { st with predicates := [] } =
              .ok fromState
        | none =>
            fromState =
              { st with predicates := [],
                        output := OpExpr.node .getDummy [] }) ∧
      (match op.condition with
        | some cond => ∃ e' mid app,
            CollectPredicates acc fuel cond fromState = .ok (e', mid, app) ∧
            base = mid.output ∧ wps = mid.predicates ++ app
        | none => base = fromState.output ∧ wps = fromState.predicates) ∧
      RequireAggregation op = .ok req ∧
      st'.output =
        specLimitWrap op.limit op.orderBy
          (specDistinctWrap op.isDistinct
            (specFilterWrap hps
              (specAggWrap req op.groupBy
                (specFilterWrap wps base)))) ∧
      (req = false → hps = []) ∧
      (op.groupBy = none → hps = []) ∧
      (∀ g, op.groupBy = some g → g.having = none → hps = []) ∧
      (∀ g hv, op.groupBy = some g → g.having = some hv → req = true →
        hps = ExtractPredicatesE hv) := by
  rw [VisitSelect] at h
  obtain ⟨st1, h1, h⟩ := except_bind_ok h
  obtain ⟨st2, h2, h⟩ := except_bind_ok h
  obtain ⟨req, hreq, h⟩ := except_bind_ok h
  obtain ⟨st4, h4, h⟩ := except_bind_ok h
  cases h
  have hfrom : (match op.selectTable with
      | some t =>
          VisitTableRef acc fuel t { st with predicates := [] } = .ok st1
      | none =>
          st1 = { st with predicates := [],
                          output := OpExpr.node .getDummy [] }) := by
    cases hsel : op.selectTable with
    | some t => rw [hsel] at h1; exact h1
    | none => rw [hsel] at h1; cases h1; rfl
  have hwhere : (match op.condition with
      | some cond => ∃ e' mid app,
          CollectPredicates acc fuel cond st1 = .ok (e', mid, app) ∧
          st2.output = mid.output ∧ st2.predicates = mid.predicates ++ app
      | none => st2.output = st1.output ∧ st2.predicates = st1.predicates) := by
    cases hcond : op.condition with
    | some cond =>
      rw [hcond] at h2
      obtain ⟨r, hr, h2⟩ := except_bind_ok h2
      cases h2
      exact ⟨r.1, r.2.1, r.2.2, hr, rfl, rfl⟩
    | none => rw [hcond] at h2; cases h2; exact ⟨rfl, rfl⟩
  refine ⟨st1, st2.output, st2.predicates, ?_⟩
  simp only [TState.output]
  cases req with
  | false =>
    simp only [Bool.false_eq_true, if_false] at h4
    cases h4
    refine ⟨[], false, hfrom, hwhere, hreq, ?_, fun _ => rfl, fun _ => rfl,
      fun _ _ _ => rfl, fun g hv _ _ hcon => (by cases hcon)⟩
    rw [LimitStep_output, DistinctStep_output, FilterStep_output]
    simp [specFilterWrap, specAggWrap]
  | true =>
    simp only [if_true] at h4
    cases hgb : op.groupBy with
    | none =>
      rw [hgb] at h4
      cases h4
      refine ⟨[], true, hfrom, hwhere, hreq, ?_, fun hcon => (by cases hcon),
        fun _ => rfl,
        fun g hg => (by cases hg),
        fun g hv hg => (by cases hg)⟩
      rw [LimitStep_output, DistinctStep_output]
      simp only [TState.output, FilterStep_output]
      simp [specFilterWrap, specAggWrap, hgb]
    | some g =>
      rw [hgb] at h4
      obtain ⟨hv, hhv, h4⟩ := except_bind_ok h4
      cases h4
      cases hhave : g.having with
      | none =>
        rw [hhave] at hhv
        cases hhv
        refine ⟨[], true, hfrom, hwhere, hreq, ?_, fun hcon => (by cases hcon),
          fun hcon => (by cases hcon),
          fun g' hg' hn => rfl,
          fun g' hv' hg' hv'' _ =>
            (by cases hg'; rw [hhave] at hv''; cases hv'')⟩
        rw [LimitStep_output, DistinctStep_output, HavingFilterStep_output]
        simp only [TState.output, FilterStep_output]
        simp [specFilterWrap, specAggWrap, hgb]
      | some hvx =>
        rw [hhave] at hhv
        obtain ⟨rcp, hrcp, hhv⟩ := except_bind_ok hhv
        have hns := hhav g hvx hgb hhave
        have hrw := collect_nosub acc fuel hvx _ rcp hns hrcp
        subst hrw
        cases hhv
        refine ⟨ExtractPredicatesE hvx, true, hfrom, hwhere, hreq, ?_,
          fun hcon => (by cases hcon),
          fun hcon => (by cases hcon),
          fun g' hg' hn =>
            (by cases hg'; rw [hhave] at hn; cases hn),
          fun g' hv' hg' hv'' _ =>
            (by cases hg'; rw [hhave] at hv''; cases hv''; rfl)⟩
        rw [LimitStep_output, DistinctStep_output, HavingFilterStep_output]
        simp only [TState.output, FilterStep_output]
        simp [specAggWrap, hgb]

/-- C7: a sub-select needing no aggregation is supported; with aggregation,
it is supported exactly when every correlated WHERE conjunct (depth below the
sub-select's) is a `COMPARE_EQUAL` with a bare `COLUMN_VALUE` on the outer
side and the other side at the sub-select's own depth.  The binder-depth
hypothesis states the invariant established upstream: a comparison's depth is
the minimum of its two children's depths. -/
theorem c7_supported_subselect (op : SelectStatement) :
    (RequireAggregation op = .ok false → IsSupportedSubSelect op = .ok true) ∧
    (RequireAggregation op = .ok true →
      (∀ p ∈ SplitPredicates op.condition, p.etype = .COMPARE_EQUAL →
        ∃ a b, p.children = [a, b] ∧ p.depth = min a.depth b.depth) →
      (IsSupportedSubSelect op = .ok true ↔
        ∀ p ∈ SplitPredicates op.condition, p.depth < op.depth →
          p.etype = .COMPARE_EQUAL ∧
          (((getChild p 0).etype = .COLUMN_VALUE ∧
            (getChild p 0).depth < op.depth ∧
            (getChild p 1).depth = op.depth) ∨
           ((getChild p 1).etype = .COLUMN_VALUE ∧
            (getChild p 1).depth < op.depth ∧
            (getChild p 0).depth = op.depth)))) := by
  constructor
  · intro hreq
    rw [IsSupportedSubSelect]
    simp [hreq, Bind.bind, Except.bind]
  · intro hreq hdepth
    rw [IsSupportedSubSelect]
    simp only [hreq, Bind.bind, Except.bind, Bool.not_true, Bool.false_eq_true,
      if_false, Except.ok.injEq]
    rw [List.all_eq_true]
    constructor
    · intro hall p hp hlt
      have hthis := hall p hp
      simp only [if_pos hlt, Bool.and_eq_true, decide_eq_true_eq] at hthis
      obtain ⟨heq, hshape⟩ := hthis
      refine ⟨heq, ?_⟩
      obtain ⟨a, b, hab, hmin⟩ := hdepth p hp heq
      have hga : getChild p 0 = a := by simp [getChild, hab]
      have hgb : getChild p 1 = b := by simp [getChild, hab]
      rw [hga, hgb] at hshape ⊢
      rcases hshape with ⟨hbd, hacv⟩ | ⟨had, hbcv⟩
      · exact Or.inl ⟨hacv, by omega, hbd⟩
      · exact Or.inr ⟨hbcv, by omega, had⟩
    · intro hall p hp
      by_cases hlt : p.depth < op.depth
      · obtain ⟨heq, hsh⟩ := hall p hp hlt
        simp only [if_pos hlt, Bool.and_eq_true, decide_eq_true_eq]
        refine ⟨heq, ?_⟩
        rcases hsh with ⟨hcv, _, hd1⟩ | ⟨hcv, _, hd0⟩
        · exact Or.inl ⟨hd1, hcv⟩
        · exact Or.inr ⟨hd0, hcv⟩
      · simp only [if_neg hlt]

/-- Outer-scope column (depth 0) used in the C7 witness. -/
def corrOuterCol : Expr := .mk .COLUMN_VALUE [] 0 "t" "x" "" none

/-- Inner-scope column (depth 1) used in the C7 witness. -/
def corrInnerCol : Expr := .mk .COLUMN_VALUE [] 1 "u" "y" "" none

/-- Correlated equality conjunct `t.x = u.y` (depth 0 = min of children). -/
def corrEqPred : Expr := .mk .COMPARE_EQUAL [corrOuterCol, corrInnerCol] 0 "" "" "" none

/-- An aggregated sub-select at depth 1 whose WHERE is the correlated
equality above. -/
def corrAggSub : SelectStatement :=
  .mk none (some corrEqPred) [.mk .AGGREGATE [] 1 "" "" "" none] none none
    none false 1

/-- A sub-select that requires no aggregation. -/
def plainSub : SelectStatement :=
  .mk none none [.mk .COLUMN_VALUE [] 1 "u" "y" "" none] none none none
    false 1

/-- Witness for C7: a non-aggregated sub-select is supported, and an
aggregated sub-select whose only correlated conjunct is an admissible
equality is supported. -/
theorem c7_supported_subselect_witness :
    IsSupportedSubSelect plainSub = .ok true ∧
    IsSupportedSubSelect corrAggSub = .ok true :=
  ⟨(c7_supported_subselect plainSub).1 rfl,
   ((c7_supported_subselect corrAggSub).2 rfl
     (by
       intro p hp _
       have hsp : SplitPredicates corrAggSub.condition = [corrEqPred] := rfl
       rw [hsp, List.mem_singleton] at hp
       subst hp
       exact ⟨corrOuterCol, corrInnerCol, rfl, by decide⟩)).mpr
     (by decide)⟩

/-- A subquery-free WHERE conjunct `t1.a = <other>` for concrete runs. -/
def whereEq : Expr :=
  .mk .COMPARE_EQUAL
    [.mk .COLUMN_VALUE [] 0 "t1" "a" "" none,
     .mk .OTHER [] 0 "" "" "" none] 0 "" "" "" none

/-- `SELECT DISTINCT a FROM t1 WHERE t1.a = ... LIMIT 10 OFFSET 0`. -/
def distinctLimitSel : SelectStatement :=
  .mk (some (baseTable "t1")) (some whereEq)
    [.mk .COLUMN_VALUE [] 0 "t1" "a" "" none] none none (some ⟨0, 10⟩) true 0

/-- The state produced by lowering `distinctLimitSel` from an empty state. -/
def distinctLimitOut : TState :=
  ⟨.node (.limit 0 10 [] [])
    [.node .distinct
      [.node (.filter [⟨whereEq, {"t1"}⟩]) [sampleGet "t1" 1]]], []⟩

/-- Witness for C2: the concrete SELECT above is lowered successfully, its
FROM state and WHERE collection are pinned, and its wrappers obey the spec
order. -/
theorem c2_select_wrapper_order_witness :
    ∃ fromState base wps hps req,
      (match distinctLimitSel.selectTable with
        | some t =>
            VisitTableRef sampleAcc 9 t ⟨.nullp, []⟩ = .ok fromState
        | none => fromState = ⟨.node .getDummy [], []⟩) ∧
      (match distinctLimitSel.condition with
        | some cond => ∃ e' mid app,
            CollectPredicates sampleAcc 9 cond fromState = .ok (e', mid, app) ∧
            base = mid.output ∧ wps = mid.predicates ++ app
        | none => base = fromState.output ∧ wps = fromState.predicates) ∧
      RequireAggregation distinctLimitSel = .ok req ∧
      distinctLimitOut.output =
        specLimitWrap distinctLimitSel.limit distinctLimitSel.orderBy
          (specDistinctWrap distinctLimitSel.isDistinct
            (specFilterWrap hps
              (specAggWrap req distinctLimitSel.groupBy
                (specFilterWrap wps base)))) ∧
      (req = false → hps = []) ∧
      (distinctLimitSel.groupBy = none → hps = []) ∧
      (∀ g, distinctLimitSel.groupBy = some g → g.having = none → hps = []) ∧
      (∀ g hv, distinctLimitSel.groupBy = some g → g.having = some hv →
        req = true → hps = ExtractPredicatesE hv) :=
  c2_select_wrapper_order sampleAcc 9 distinctLimitSel ⟨.nullp, []⟩
    distinctLimitOut (fun g hv hg _ => by cases hg) rfl

/-- C8: visiting a `COMPARE_IN` whose right child is a row subquery over a
sub-select with exactly one select-list column (and subquery-free left child
and projected column) succeeds only by rewriting the node to `COMPARE_EQUAL`,
replacing the right child with the sub-select's single projected column, and
replacing the output slot with a `MarkJoin` whose first child is the previous
output tree and whose second child is the lowered sub-select; the sub-select
is necessarily admissible. -/
theorem c8_compare_in_markjoin_rewrite (acc : CatalogAccessor) (fuel : Nat)
    (c0 subIn col : Expr) (dp : Int) (tn cn an : String)
    (es : Option SelectStatement) (ss : SelectStatement) (st : TState)
    (r : Expr × TState)
    (hsub : subIn.etype = .ROW_SUBQUERY) (hss : subIn.subSelect = some ss)
    (hcols : ss.selectColumns = [col])
    (hc0 : HasSubqueryE c0 = false) (hcol : HasSubqueryE col = false)
    (h : VisitExpr acc fuel (.mk .COMPARE_IN [c0, subIn] dp tn cn an es) st =
      .ok r) :
    ∃ f1 stSub,
      fuel = f1 + 2 ∧
      IsSupportedSubSelect ss = .ok true ∧
      VisitSelect acc f1 ss st = .ok stSub ∧
      r = (.mk .COMPARE_EQUAL [c0, col] dp tn cn an es,
           { output := .node .markJoin [st.output, stSub.output],
             predicates := stSub.predicates }) := by
  cases fuel with
  | zero => rw [VisitExpr] at h; cases h
  | succ f0 =>
    rw [VisitExpr] at h
    rw [if_pos (show (Expr.mk .COMPARE_IN [c0, subIn] dp tn cn an es).etype =
      .COMPARE_IN from rfl)] at h
    obtain ⟨g, hg, h⟩ := except_bind_ok h
    cases f0 with
    | zero => rw [GenerateSubqueryTree] at hg; cases hg
    | succ f1 =>
      simp only [GenerateSubqueryTree] at hg
      have hch : getChild (Expr.mk .COMPARE_IN [c0, subIn] dp tn cn an es) 1 =
          subIn := rfl
      rw [hch] at hg
      rw [if_neg (by simp [hsub])] at hg
      rw [hss] at hg
      obtain ⟨sup, hsup, hg⟩ := except_bind_ok hg
      cases sup with
      | false => simp at hg
      | true =>
        simp only [Bool.not_true, Bool.false_eq_true, if_false, hcols,
          List.length_singleton, ne_eq, not_true_eq_false] at hg
        obtain ⟨stSub, hvs, hg⟩ := except_bind_ok hg
        cases hg
        have h' : AcceptChildren acc (f1+1)
            (.mk .COMPARE_EQUAL [c0, col] dp tn cn an es)
            { output := .node .markJoin [st.output, stSub.output],
              predicates := stSub.predicates } = .ok r := h
        have hns : HasSubqueryE (.mk .COMPARE_EQUAL [c0, col] dp tn cn an es) =
            false := by
          rw [HasSubqueryE]
          simp [HasSubqueryL, hc0, hcol]
        have hr := (visit_nosub acc (f1+1)).2.1 _ _ r hns h'
        exact ⟨f1, stSub, rfl, hsup, hvs, hr⟩

/-- Projected column `t2.b` of the C8 witness sub-select. -/
def inProjCol : Expr := .mk .COLUMN_VALUE [] 1 "t2" "b" "" none

/-- The sub-select `SELECT t2.b FROM t2` of the C8 witness. -/
def inSubSel : SelectStatement :=
  .mk (some (baseTable "t2")) none [inProjCol] none none none false 1

/-- The row-subquery expression wrapping `inSubSel`. -/
def inSubExpr : Expr := .mk .ROW_SUBQUERY [] 1 "" "" "" (some inSubSel)

/-- The left operand `t.a` of the C8 witness IN predicate. -/
def inLeftCol : Expr := .mk .COLUMN_VALUE [] 0 "t" "a" "" none

/-- Witness for C8: visiting `t.a IN (SELECT t2.b FROM t2)` over a previous
output `Get(t1)` produces the rewritten equality and a mark join. -/
theorem c8_compare_in_markjoin_rewrite_witness :
    ∃ f1 stSub,
      (10 : Nat) = f1 + 2 ∧
      IsSupportedSubSelect inSubSel = .ok true ∧
      VisitSelect sampleAcc f1 inSubSel ⟨sampleGet "t1" 1, []⟩ = .ok stSub ∧
      ((.mk .COMPARE_EQUAL [inLeftCol, inProjCol] 0 "" "" "" none,
        ({ output := .node .markJoin [sampleGet "t1" 1, sampleGet "t2" 2],
           predicates := [] } : TState)) : Expr × TState) =
        (.mk .COMPARE_EQUAL [inLeftCol, inProjCol] 0 "" "" "" none,
         { output := .node .markJoin
             [(⟨sampleGet "t1" 1, []⟩ : TState).output, stSub.output],
           predicates := stSub.predicates }) :=
  c8_compare_in_markjoin_rewrite sampleAcc 10 inLeftCol inSubExpr inProjCol
    0 "" "" "" none inSubSel ⟨sampleGet "t1" 1, []⟩
    (.mk .COMPARE_EQUAL [inLeftCol, inProjCol] 0 "" "" "" none,
     { output := .node .markJoin [sampleGet "t1" 1, sampleGet "t2" 2],
       predicates := [] })
    rfl rfl rfl rfl rfl rfl

theorem checkTupleSizes_ok (n : Nat) (rows : List (List Expr))
    (h : ∀ r ∈ rows, r.length = n) : CheckTupleSizes n rows = .ok () := by
  induction rows with
  | nil => rfl
  | cons a as ih =>
    have ha := h a (by simp)
    rw [CheckTupleSizes, if_neg (by omega), if_neg (by omega)]
    exact ih (fun r hr => h r (by simp [hr]))

theorem checkTupleSizes_wide (n : Nat) (rows : List (List Expr))
    (hge : ∀ r ∈ rows, n ≤ r.length) (hex : ∃ r ∈ rows, n < r.length) :
    CheckTupleSizes n rows =
      .error (.catalogExc "ERROR:  INSERT has more expressions than target columns") := by
  induction rows with
  | nil => simp at hex
  | cons a as ih =>
    rw [CheckTupleSizes]
    by_cases ha : a.length > n
    · rw [if_pos ha]
    · rw [if_neg ha, if_neg (by have := hge a (by simp); omega)]
      refine ih (fun r hr => hge r (by simp [hr])) ?_
      rcases hex with ⟨r, hr, hlt⟩
      rcases List.mem_cons.mp hr with rfl | hr
      · omega
      · exact ⟨r, hr, hlt⟩

theorem checkTupleSizes_narrow (n : Nat) (rows : List (List Expr))
    (hle : ∀ r ∈ rows, r.length ≤ n) (hex : ∃ r ∈ rows, r.length < n) :
    CheckTupleSizes n rows =
      .error (.catalogExc "ERROR:  INSERT has more target columns than expressions") := by
  induction rows with
  | nil => simp at hex
  | cons a as ih =>
    rw [CheckTupleSizes]
    rw [if_neg (by have := hle a (by simp); omega)]
    by_cases ha : a.length < n
    · rw [if_pos ha]
    · rw [if_neg ha]
      refine ih (fun r hr => hle r (by simp [hr])) ?_
      rcases hex with ⟨r, hr, hlt⟩
      rcases List.mem_cons.mp hr with rfl | hr
      · omega
      · exact ⟨r, hr, hlt⟩

theorem resolveInsertColumns_ok (schema : Schema) (relName : String)
    (cs : List String) (h : ∀ c ∈ cs, (schema.getColumn c).isSome) :
    ResolveInsertColumns schema relName cs =
      .ok ((cs.filterMap
        (fun c => (schema.getColumn c).map Column.oid)).toFinset) := by
  induction cs with
  | nil => simp [ResolveInsertColumns]
  | cons c cs ih =>
    rw [ResolveInsertColumns]
    rcases hoc : schema.getColumn c with _ | colv
    · exact absurd (h c (by simp)) (by simp [hoc])
    · rw [ih (fun x hx => h x (by simp [hx]))]
      simp [Bind.bind, Except.bind, List.filterMap_cons, hoc]

theorem resolveInsertColumns_err (schema : Schema) (relName : String)
    (cs : List String) (hex : ∃ c ∈ cs, schema.getColumn c = none) :
    ∃ c ∈ cs, schema.getColumn c = none ∧
      ResolveInsertColumns schema relName cs =
        .error (.catalogExc ("ERROR:  column \"" ++ c ++ "\" of relation \"" ++
          relName ++ "\" does not exist")) := by
  induction cs with
  | nil => simp at hex
  | cons c cs ih =>
    rcases hoc : schema.getColumn c with _ | colv
    · exact ⟨c, by simp, hoc, by rw [ResolveInsertColumns]; simp [hoc]⟩
    · have hex' : ∃ x ∈ cs, schema.getColumn x = none := by
        rcases hex with ⟨x, hx, hnone⟩
        rcases List.mem_cons.mp hx with rfl | hx
        · rw [hoc] at hnone; cases hnone
        · exact ⟨x, hx, hnone⟩
      obtain ⟨x, hx, hn, herr⟩ := ih hex'
      exact ⟨x, by simp [hx], hn,
        by rw [ResolveInsertColumns]; simp [hoc, herr, Bind.bind, Except.bind]⟩

theorem checkNotNullUnspecified_ok (spec : Finset Nat) (cols : List Column)
    (h : ∀ col ∈ cols, col.oid ∈ spec ∨ col.nullable = true ∨
      col.storedExpr.isSome) :
    CheckNotNullUnspecified spec cols = .ok () := by
  induction cols with
  | nil => rfl
  | cons c cs ih =>
    rw [CheckNotNullUnspecified]
    rw [if_neg (by
      rcases h c (by simp) with hc | hc | hc
      · simp [hc]
      · simp [hc]
      · simp [Option.isNone_iff_eq_none] at hc ⊢
        intro _ _
        simp [Option.isSome_iff_ne_none] at hc
        exact hc)]
    exact ih (fun col hc => h col (by simp [hc]))

theorem checkNotNullUnspecified_err (spec : Finset Nat) (cols : List Column)
    (hex : ∃ col ∈ cols, col.oid ∉ spec ∧ col.nullable = false ∧
      col.storedExpr = none) :
    ∃ col ∈ cols, col.oid ∉ spec ∧ col.nullable = false ∧
      col.storedExpr = none ∧
      CheckNotNullUnspecified spec cols =
        .error (.catalogExc ("ERROR: null value in column \"" ++ col.name ++
          "\" violates not-null constraint")) := by
  induction cols with
  | nil => simp at hex
  | cons c cs ih =>
    by_cases hc : c.oid ∉ spec ∧ c.nullable = false ∧ c.storedExpr.isNone
    · refine ⟨c, by simp, hc.1, hc.2.1, ?_, ?_⟩
      · have := hc.2.2; simpa [Option.isNone_iff_eq_none] using this
      · rw [CheckNotNullUnspecified]
        rw [if_pos (by
          refine ⟨hc.1, ?_, hc.2.2⟩
          simp [hc.2.1])]
    · have hex' : ∃ col ∈ cs, col.oid ∉ spec ∧ col.nullable = false ∧
          col.storedExpr = none := by
        rcases hex with ⟨x, hx, hprop⟩
        rcases List.mem_cons.mp hx with rfl | hx
        · exact absurd ⟨hprop.1, hprop.2.1,
            by simp [Option.isNone_iff_eq_none, hprop.2.2]⟩ hc
        · exact ⟨x, hx, hprop⟩
      obtain ⟨x, hx, h1, h2, h3, herr⟩ := ih hex'
      refine ⟨x, by simp [hx], h1, h2, h3, ?_⟩
      rw [CheckNotNullUnspecified]
      rw [if_neg (by
        intro hcon
        exact hc ⟨hcon.1, by simpa using hcon.2.1, hcon.2.2⟩)]
      exact herr

theorem checkMissingColumns_ok (cols : List Column)
    (h : ∀ col ∈ cols, col.nullable = true ∨ col.storedExpr.isSome) :
    CheckMissingColumns cols = .ok () := by
  induction cols with
  | nil => rfl
  | cons c cs ih =>
    rw [CheckMissingColumns]
    rw [if_neg (by
      rcases h c (by simp) with hc | hc
      · simp [hc]
      · intro hcon
        rw [Option.isNone_iff_eq_none] at hcon
        simp [Option.isSome_iff_ne_none] at hc
        exact hc hcon.2)]
    exact ih (fun col hc => h col (by simp [hc]))

theorem checkMissingColumns_err (cols : List Column)
    (hex : ∃ col ∈ cols, col.nullable = false ∧ col.storedExpr = none) :
    ∃ col ∈ cols, col.nullable = false ∧ col.storedExpr = none ∧
      CheckMissingColumns cols =
        .error (.catalogExc ("ERROR:  null value in column \"" ++ col.name ++
          "\" violates not-null constraint")) := by
  induction cols with
  | nil => simp at hex
  | cons c cs ih =>
    by_cases hc : c.nullable = false ∧ c.storedExpr.isNone
    · refine ⟨c, by simp, hc.1,
        by simpa [Option.isNone_iff_eq_none] using hc.2, ?_⟩
      rw [CheckMissingColumns]
      rw [if_pos ⟨by simp [hc.1], hc.2⟩]
    · have hex' : ∃ col ∈ cs, col.nullable = false ∧ col.storedExpr = none := by
        rcases hex with ⟨x, hx, hprop⟩
        rcases List.mem_cons.mp hx with rfl | hx
        · exact absurd ⟨hprop.1,
            by simp [Option.isNone_iff_eq_none, hprop.2]⟩ hc
        · exact ⟨x, hx, hprop⟩
      obtain ⟨x, hx, h1, h2, herr⟩ := ih hex'
      refine ⟨x, by simp [hx], h1, h2, ?_⟩
      rw [CheckMissingColumns]
      rw [if_neg (by
        intro hcon
        exact hc ⟨by simpa using hcon.1, hcon.2⟩)]
      exact herr

theorem checkValuesImplicit_ok (cols : List Column) (rows : List (List Expr))
    (h : ∀ r ∈ rows, r.length ≤ cols.length ∧
      ∀ col ∈ cols.drop r.length, col.nullable = true ∨ col.storedExpr.isSome) :
    CheckValuesImplicit cols rows = .ok () := by
  induction rows with
  | nil => rfl
  | cons a as ih =>
    obtain ⟨hlen, hmiss⟩ := h a (by simp)
    rw [CheckValuesImplicit]
    rw [if_neg (by omega)]
    have hbody : (if a.length < cols.length then
        CheckMissingColumns (cols.drop a.length) else .ok ()) = .ok () := by
      by_cases hlt : a.length < cols.length
      · rw [if_pos hlt]
        exact checkMissingColumns_ok _ hmiss
      · rw [if_neg hlt]
    rw [hbody]
    simpa [Bind.bind, Except.bind] using ih (fun r hr => h r (by simp [hr]))

theorem checkMissingColumns_err_shape (cols : List Column) (e : Err)
    (h : CheckMissingColumns cols = .error e) : ∃ msg, e = .catalogExc msg := by
  induction cols with
  | nil => cases h
  | cons c cs ih =>
    rw [CheckMissingColumns] at h
    by_cases hc : ¬ c.nullable ∧ c.storedExpr.isNone
    · rw [if_pos hc] at h; cases h; exact ⟨_, rfl⟩
    · rw [if_neg hc] at h; exact ih h

theorem checkValuesImplicit_err_wide (cols : List Column)
    (rows : List (List Expr)) (hex : ∃ r ∈ rows, cols.length < r.length) :
    ∃ msg, CheckValuesImplicit cols rows = .error (.catalogExc msg) := by
  induction rows with
  | nil => simp at hex
  | cons a as ih =>
    rw [CheckValuesImplicit]
    by_cases ha : a.length > cols.length
    · rw [if_pos ha]
      exact ⟨_, rfl⟩
    · rw [if_neg ha]
      rcases hmc : (if a.length < cols.length then
          CheckMissingColumns (cols.drop a.length) else .ok ()) with e | u
      · -- the missing-column check on this row already errors
        have hshape : ∃ msg, e = Err.catalogExc msg := by
          by_cases hlt : a.length < cols.length
          · rw [if_pos hlt] at hmc
            exact checkMissingColumns_err_shape _ e hmc
          · rw [if_neg hlt] at hmc; cases hmc
        obtain ⟨msg, rfl⟩ := hshape
        exact ⟨msg, by simp [hmc, Bind.bind, Except.bind]⟩
      · have hex' : ∃ r ∈ as, cols.length < r.length := by
          rcases hex with ⟨r, hr, hlt⟩
          rcases List.mem_cons.mp hr with rfl | hr
          · omega
          · exact ⟨r, hr, hlt⟩
        obtain ⟨msg, herr⟩ := ih hex'
        exact ⟨msg, by simp [hmc, Bind.bind, Except.bind, herr]⟩

theorem checkValuesImplicit_err_missing (cols : List Column)
    (rows : List (List Expr))
    (hall : ∀ r ∈ rows, r.length ≤ cols.length)
    (hex : ∃ r ∈ rows, ∃ col ∈ cols.drop r.length,
      col.nullable = false ∧ col.storedExpr = none) :
    ∃ col ∈ cols, col.nullable = false ∧ col.storedExpr = none ∧
      CheckValuesImplicit cols rows =
        .error (.catalogExc ("ERROR:  null value in column \"" ++ col.name ++
          "\" violates not-null constraint")) := by
  induction rows with
  | nil => simp at hex
  | cons a as ih =>
    rw [CheckValuesImplicit]
    rw [if_neg (by have := hall a (by simp); omega)]
    by_cases hbad : ∃ col ∈ cols.drop a.length,
        col.nullable = false ∧ col.storedExpr = none
    · obtain ⟨col, hm, h1, h2, herr⟩ := checkMissingColumns_err _ hbad
      have hmem : col ∈ cols := List.drop_subset _ _ hm
      have hlt : a.length < cols.length := by
        by_contra hge
        have hnil : cols.drop a.length = [] :=
          List.drop_eq_nil_of_le (by omega)
        rw [hnil] at hm
        simp at hm
      refine ⟨col, hmem, h1, h2, ?_⟩
      rw [if_pos hlt, herr]
      simp [Bind.bind, Except.bind]
    · have hok : (if a.length < cols.length then
          CheckMissingColumns (cols.drop a.length) else .ok ()) = .ok () := by
        by_cases hlt : a.length < cols.length
        · rw [if_pos hlt]
          apply checkMissingColumns_ok
          intro col hc
          rcases Bool.eq_false_or_eq_true col.nullable with hn | hn
          · left; exact hn
          · rcases hso : col.storedExpr with _ | v
            · exact absurd ⟨col, hc, hn, hso⟩ hbad
            · right; simp [hso]
        · rw [if_neg hlt]
      have hex' : ∃ r ∈ as, ∃ col ∈ cols.drop r.length,
          col.nullable = false ∧ col.storedExpr = none := by
        rcases hex with ⟨r, hr, hcol⟩
        rcases List.mem_cons.mp hr with rfl | hr
        · exact absurd hcol hbad
        · exact ⟨r, hr, hcol⟩
      obtain ⟨col, hmem, h1, h2, herr⟩ :=
        ih (fun r hr => hall r (by simp [hr])) hex'
      refine ⟨col, hmem, h1, h2, ?_⟩
      rw [hok]
      simpa [Bind.bind, Except.bind] using herr

/-- The schema columns of the target table of an INSERT. -/
def schemaColumns (acc : CatalogAccessor) (op : InsertStatement) : List Column :=
  (acc.schemaOf (acc.tableOid op.table.tableName)).columns

/-- The set of column oids named by an explicit INSERT column list (each name
resolved through the schema). -/
def specifiedOids (acc : CatalogAccessor) (op : InsertStatement) : Finset Nat :=
  (op.columns.filterMap
    (fun c => ((acc.schemaOf (acc.tableOid op.table.tableName)).getColumn
      c).map Column.oid)).toFinset

/-- C5: for `INSERT ... VALUES` without an explicit column list, rows no wider
than the schema whose trailing missing columns are all nullable or defaulted
are accepted — with `col_ids` the full schema column oids in schema order —
while a row wider than the schema always fails, and a missing non-nullable,
non-defaulted trailing column fails with a not-null violation. -/
theorem c5_insert_implicit_columns (acc : CatalogAccessor) (fuel : Nat)
    (op : InsertStatement) (st : TState)
    (hty : op.insertType = .values) (hcols : op.columns = []) :
    ((∀ r ∈ op.values, r.length ≤ (schemaColumns acc op).length ∧
        ∀ col ∈ (schemaColumns acc op).drop r.length,
          col.nullable = true ∨ col.storedExpr.isSome) →
      VisitInsert acc (fuel+1) op st =
        .ok { st with
                output := .node (.insert (acc.databaseOid op.table.dbName)
                  acc.defaultNamespace (acc.tableOid op.table.tableName)
                  ((schemaColumns acc op).map Column.oid) op.values) [] }) ∧
    ((∃ r ∈ op.values, (schemaColumns acc op).length < r.length) →
      ∃ msg, VisitInsert acc (fuel+1) op st = .error (.catalogExc msg)) ∧
    ((∀ r ∈ op.values, r.length ≤ (schemaColumns acc op).length) →
      (∃ r ∈ op.values, ∃ col ∈ (schemaColumns acc op).drop r.length,
        col.nullable = false ∧ col.storedExpr = none) →
      ∃ col ∈ schemaColumns acc op, col.nullable = false ∧
        col.storedExpr = none ∧
        VisitInsert acc (fuel+1) op st =
          .error (.catalogExc ("ERROR:  null value in column \"" ++ col.name ++
            "\" violates not-null constraint"))) := by
  refine ⟨?_, ?_, ?_⟩
  · intro h
    simp only [schemaColumns] at h
    simp only [VisitInsert]
    rw [if_neg (by simp [hty]), if_pos (by simp [hcols])]
    rw [checkValuesImplicit_ok _ _ h]
    simp [Bind.bind, Except.bind, schemaColumns]
  · intro hex
    simp only [schemaColumns] at hex
    obtain ⟨msg, herr⟩ := checkValuesImplicit_err_wide _ op.values hex
    refine ⟨msg, ?_⟩
    simp only [VisitInsert]
    rw [if_neg (by simp [hty]), if_pos (by simp [hcols])]
    rw [herr]
    simp [Bind.bind, Except.bind]
  · intro hall hex
    simp only [schemaColumns] at hall hex
    obtain ⟨col, hmem, h1, h2, herr⟩ :=
      checkValuesImplicit_err_missing _ op.values hall hex
    refine ⟨col, by simpa [schemaColumns] using hmem, h1, h2, ?_⟩
    simp only [VisitInsert]
    rw [if_neg (by simp [hty]), if_pos (by simp [hcols])]
    rw [herr]
    simp [Bind.bind, Except.bind]

/-- C4: for `INSERT ... (cols) VALUES ...`, a row wider than the explicit
column list fails with the too-many-expressions error, a narrower row fails
with "more target columns than expressions", an unknown column name fails
with a "does not exist" error, a non-nullable, non-defaulted schema column
outside the specified set fails with a not-null violation, and otherwise the
`LogicalInsert` is emitted with `col_ids` equal (as a set) to the specified
columns. -/
theorem c4_insert_explicit_columns (acc : CatalogAccessor) (fuel : Nat)
    (op : InsertStatement) (st : TState)
    (hty : op.insertType = .values) (hcols : op.columns ≠ []) :
    ((∀ r ∈ op.values, op.columns.length ≤ r.length) →
      (∃ r ∈ op.values, op.columns.length < r.length) →
      VisitInsert acc (fuel+1) op st =
        .error (.catalogExc "ERROR:  INSERT has more expressions than target columns")) ∧
    ((∀ r ∈ op.values, r.length ≤ op.columns.length) →
      (∃ r ∈ op.values, r.length < op.columns.length) →
      VisitInsert acc (fuel+1) op st =
        .error (.catalogExc "ERROR:  INSERT has more target columns than expressions")) ∧
    ((∀ r ∈ op.values, r.length = op.columns.length) →
      (∃ c ∈ op.columns,
        (acc.schemaOf (acc.tableOid op.table.tableName)).getColumn c = none) →
      ∃ c ∈ op.columns,
        (acc.schemaOf (acc.tableOid op.table.tableName)).getColumn c = none ∧
        VisitInsert acc (fuel+1) op st =
          .error (.catalogExc ("ERROR:  column \"" ++ c ++ "\" of relation \"" ++
            op.table.tableName ++ "\" does not exist"))) ∧
    ((∀ r ∈ op.values, r.length = op.columns.length) →
      (∀ c ∈ op.columns,
        ((acc.schemaOf (acc.tableOid op.table.tableName)).getColumn c).isSome) →
      (∃ col ∈ schemaColumns acc op, col.oid ∉ specifiedOids acc op ∧
        col.nullable = false ∧ col.storedExpr = none) →
      ∃ col ∈ schemaColumns acc op, col.oid ∉ specifiedOids acc op ∧
        col.nullable = false ∧ col.storedExpr = none ∧
        VisitInsert acc (fuel+1) op st =
          .error (.catalogExc ("ERROR: null value in column \"" ++ col.name ++
            "\" violates not-null constraint"))) ∧
    ((∀ r ∈ op.values, r.length = op.columns.length) →
      (∀ c ∈ op.columns,
        ((acc.schemaOf (acc.tableOid op.table.tableName)).getColumn c).isSome) →
      (∀ col ∈ schemaColumns acc op, col.oid ∈ specifiedOids acc op ∨
        col.nullable = true ∨ col.storedExpr.isSome) →
      ∃ colIds, colIds.toFinset = specifiedOids acc op ∧
        VisitInsert acc (fuel+1) op st =
          .ok { st with
                  output := .node (.insert (acc.databaseOid op.table.dbName)
                    acc.defaultNamespace (acc.tableOid op.table.tableName)
                    colIds op.values) [] }) := by
  refine ⟨?_, ?_, ?_, ?_, ?_⟩
  · intro hge hex
    simp only [VisitInsert]
    rw [if_neg (by simp [hty]), if_neg (by simp [List.isEmpty_iff, hcols])]
    rw [checkTupleSizes_wide _ _ hge hex]
    simp [Bind.bind, Except.bind]
  · intro hle hex
    simp only [VisitInsert]
    rw [if_neg (by simp [hty]), if_neg (by simp [List.isEmpty_iff, hcols])]
    rw [checkTupleSizes_narrow _ _ hle hex]
    simp [Bind.bind, Except.bind]
  · intro hsz hex
    obtain ⟨c, hc, hnone, herr⟩ := resolveInsertColumns_err
      (acc.schemaOf (acc.tableOid op.table.tableName)) op.table.tableName
      op.columns hex
    refine ⟨c, hc, hnone, ?_⟩
    simp only [VisitInsert]
    rw [if_neg (by simp [hty]), if_neg (by simp [List.isEmpty_iff, hcols])]
    rw [checkTupleSizes_ok _ _ hsz]
    rw [show (Bind.bind (Except.ok ()) :
      (Unit → Except Err TState) → Except Err TState) = fun f => f () from rfl]
    rw [herr]
    simp [Bind.bind, Except.bind]
  · intro hsz hres hex
    simp only [schemaColumns, specifiedOids] at hex
    obtain ⟨col, hmem, h1, h2, h3, herr⟩ := checkNotNullUnspecified_err
      ((op.columns.filterMap
        (fun c => ((acc.schemaOf (acc.tableOid op.table.tableName)).getColumn
          c).map Column.oid)).toFinset)
      (acc.schemaOf (acc.tableOid op.table.tableName)).columns hex
    refine ⟨col, by simpa [schemaColumns] using hmem,
      by simpa [specifiedOids] using h1, h2, h3, ?_⟩
    simp only [VisitInsert]
    rw [if_neg (by simp [hty]), if_neg (by simp [List.isEmpty_iff, hcols])]
    rw [checkTupleSizes_ok _ _ hsz]
    rw [resolveInsertColumns_ok _ _ _ hres]
    simp only [Bind.bind, Except.bind]
    rw [herr]
  · intro hsz hres hok
    simp only [schemaColumns, specifiedOids] at hok
    refine ⟨((op.columns.filterMap
      (fun c => ((acc.schemaOf (acc.tableOid op.table.tableName)).getColumn
        c).map Column.oid)).toFinset).sort (· ≤ ·), ?_, ?_⟩
    · simp [specifiedOids]
    · simp only [VisitInsert]
      rw [if_neg (by simp [hty]), if_neg (by simp [List.isEmpty_iff, hcols])]
      rw [checkTupleSizes_ok _ _ hsz]
      rw [resolveInsertColumns_ok _ _ _ hres]
      simp only [Bind.bind, Except.bind]
      rw [checkNotNullUnspecified_ok _ _ hok]

/-- Non-nullable, non-defaulted column `id` used by the INSERT witnesses. -/
def idCol : Column := ⟨1, "id", false, none⟩

/-- Nullable column `nm` used by the INSERT witnesses. -/
def nameCol : Column := ⟨2, "nm", true, none⟩

/-- Catalog whose every table has schema `[idCol, nameCol]`. -/
def insertAcc : CatalogAccessor :=
  { databaseOid := fun _ => 7
    defaultNamespace := 5
    tableOid := fun _ => 9
    schemaOf := fun _ => ⟨[idCol, nameCol]⟩ }

/-- An opaque value expression for INSERT rows. -/
def someVal : Expr := .mk .OTHER [] 0 "" "" "" none

/-- `INSERT INTO h (id) VALUES (v)`. -/
def insOpOk : InsertStatement := ⟨.values, baseTable "h", ["id"], [[someVal]], none⟩

/-- `INSERT INTO h (nm) VALUES (v)` — leaves non-nullable `id` unspecified. -/
def insOpNotNull : InsertStatement :=
  ⟨.values, baseTable "h", ["nm"], [[someVal]], none⟩

/-- Witness for C4: the single-column INSERT succeeds with `col_ids = {id}`,
and specifying only the nullable column fails with the not-null violation on
`id`. -/
theorem c4_insert_explicit_columns_witness :
    (∃ colIds, colIds.toFinset = specifiedOids insertAcc insOpOk ∧
      VisitInsert insertAcc (4+1) insOpOk ⟨.nullp, []⟩ =
        .ok { (⟨.nullp, []⟩ : TState) with
                output := .node (.insert (insertAcc.databaseOid
                    insOpOk.table.dbName) insertAcc.defaultNamespace
                  (insertAcc.tableOid insOpOk.table.tableName) colIds
                  insOpOk.values) [] }) ∧
    (∃ col ∈ schemaColumns insertAcc insOpNotNull,
      col.oid ∉ specifiedOids insertAcc insOpNotNull ∧ col.nullable = false ∧
      col.storedExpr = none ∧
      VisitInsert insertAcc (4+1) insOpNotNull ⟨.nullp, []⟩ =
        .error (.catalogExc ("ERROR: null value in column \"" ++ col.name ++
          "\" violates not-null constraint"))) :=
  ⟨(c4_insert_explicit_columns insertAcc 4 insOpOk ⟨.nullp, []⟩ rfl
      (by decide)).2.2.2.2 (by decide) (by decide) (by decide),
   (c4_insert_explicit_columns insertAcc 4 insOpNotNull ⟨.nullp, []⟩ rfl
      (by decide)).2.2.2.1 (by decide) (by decide)
      ⟨idCol, List.mem_cons_self _ _, by decide, rfl, rfl⟩⟩

/-- `INSERT INTO h VALUES (v)` — one-column row against the two-column
schema. -/
def insOpImpl : InsertStatement := ⟨.values, baseTable "h", [], [[someVal]], none⟩

/-- `INSERT INTO h VALUES ()` — empty row, so non-nullable `id` is missing. -/
def insOpImplBad : InsertStatement := ⟨.values, baseTable "h", [], [[]], none⟩

/-- `INSERT INTO h VALUES (v, v, v)` — wider than the schema. -/
def insOpImplWide : InsertStatement :=
  ⟨.values, baseTable "h", [], [[someVal, someVal, someVal]], none⟩

/-- Witness for C5: the short row is accepted with `col_ids` the full schema
in order; the empty row fails with a not-null violation; the wide row
fails. -/
theorem c5_insert_implicit_columns_witness :
    VisitInsert insertAcc (4+1) insOpImpl ⟨.nullp, []⟩ =
      .ok { (⟨.nullp, []⟩ : TState) with
              output := .node (.insert (insertAcc.databaseOid
                  insOpImpl.table.dbName) insertAcc.defaultNamespace
                (insertAcc.tableOid insOpImpl.table.tableName)
                ((schemaColumns insertAcc insOpImpl).map Column.oid)
                insOpImpl.values) [] } ∧
    (∃ col ∈ schemaColumns insertAcc insOpImplBad, col.nullable = false ∧
      col.storedExpr = none ∧
      VisitInsert insertAcc (4+1) insOpImplBad ⟨.nullp, []⟩ =
        .error (.catalogExc ("ERROR:  null value in column \"" ++ col.name ++
          "\" violates not-null constraint"))) ∧
    (∃ msg, VisitInsert insertAcc (4+1) insOpImplWide ⟨.nullp, []⟩ =
      .error (.catalogExc msg)) :=
  ⟨(c5_insert_implicit_columns insertAcc 4 insOpImpl ⟨.nullp, []⟩ rfl
      rfl).1 (by decide),
   (c5_insert_implicit_columns insertAcc 4 insOpImplBad ⟨.nullp, []⟩ rfl
      rfl).2.2 (by decide)
      ⟨[], List.mem_cons_self _ _, idCol, List.mem_cons_self _ _, rfl, rfl⟩,
   (c5_insert_implicit_columns insertAcc 4 insOpImplWide ⟨.nullp, []⟩ rfl
      rfl).2.1 ⟨[someVal, someVal, someVal], List.mem_cons_self _ _,
        by decide⟩⟩

/-- Witness for C9: lowering the concrete SELECT from a state whose
accumulator holds one annotated predicate returns that accumulator
unchanged. -/
theorem c9_predicate_accumulator_restored_witness :
    (⟨distinctLimitOut.output, [⟨someVal, ∅⟩]⟩ : TState).predicates =
      (⟨.nullp, [⟨someVal, ∅⟩]⟩ : TState).predicates :=
  c9_predicate_accumulator_restored sampleAcc 10 distinctLimitSel
    ⟨.nullp, [⟨someVal, ∅⟩]⟩ ⟨distinctLimitOut.output, [⟨someVal, ∅⟩]⟩ rfl
